import Mathlib

/-!
# Verification of the tetris.ts core engine

A shallow embedding of the core rules engine of the `tetris.ts` repository:
piece geometry (`Tetrominoes.ts`), the board (`Board.ts`), the SRS rotation
system (`RotationSystem.ts`), scoring (`Scoring.ts`), game modes
(`GameMode.ts`), the 7-bag randomizer (`BagRandomizer.ts`) and the central
state machine (`GameState.ts`).  JavaScript numbers holding integer
quantities are modelled as `Nat`/`Int`; time quantities and the injected
random source, which are genuinely fractional, are modelled as `ℚ`.
-/

/-! ## Tetrominoes.ts -/

inductive PieceType where
  | I | O | T | S | Z | J | L
deriving DecidableEq, Repr

/-- A (row, col) cell; row increases downward. -/
structure Cell where
  row : Int
  col : Int
deriving DecidableEq, Repr

/-- `PIECE_DATA[type].states`: the four rotation states, each four cell
offsets from the piece origin, exactly as listed in `Tetrominoes.ts`. -/
def pieceStates : PieceType → List (List Cell)
  | .I =>
      [[⟨1, 0⟩, ⟨1, 1⟩, ⟨1, 2⟩, ⟨1, 3⟩],
       [⟨0, 2⟩, ⟨1, 2⟩, ⟨2, 2⟩, ⟨3, 2⟩],
       [⟨2, 0⟩, ⟨2, 1⟩, ⟨2, 2⟩, ⟨2, 3⟩],
       [⟨0, 1⟩, ⟨1, 1⟩, ⟨2, 1⟩, ⟨3, 1⟩]]
  | .O =>
      [[⟨0, 0⟩, ⟨0, 1⟩, ⟨1, 0⟩, ⟨1, 1⟩],
       [⟨0, 0⟩, ⟨0, 1⟩, ⟨1, 0⟩, ⟨1, 1⟩],
       [⟨0, 0⟩, ⟨0, 1⟩, ⟨1, 0⟩, ⟨1, 1⟩],
       [⟨0, 0⟩, ⟨0, 1⟩, ⟨1, 0⟩, ⟨1, 1⟩]]
  | .T =>
      [[⟨0, 1⟩, ⟨1, 0⟩, ⟨1, 1⟩, ⟨1, 2⟩],
       [⟨0, 1⟩, ⟨1, 1⟩, ⟨1, 2⟩, ⟨2, 1⟩],
       [⟨1, 0⟩, ⟨1, 1⟩, ⟨1, 2⟩, ⟨2, 1⟩],
       [⟨0, 1⟩, ⟨1, 0⟩, ⟨1, 1⟩, ⟨2, 1⟩]]
  | .S =>
      [[⟨0, 1⟩, ⟨0, 2⟩, ⟨1, 0⟩, ⟨1, 1⟩],
       [⟨0, 1⟩, ⟨1, 1⟩, ⟨1, 2⟩, ⟨2, 2⟩],
       [⟨1, 1⟩, ⟨1, 2⟩, ⟨2, 0⟩, ⟨2, 1⟩],
       [⟨0, 0⟩, ⟨1, 0⟩, ⟨1, 1⟩, ⟨2, 1⟩]]
  | .Z =>
      [[⟨0, 0⟩, ⟨0, 1⟩, ⟨1, 1⟩, ⟨1, 2⟩],
       [⟨0, 2⟩, ⟨1, 1⟩, ⟨1, 2⟩, ⟨2, 1⟩],
       [⟨1, 0⟩, ⟨1, 1⟩, ⟨2, 1⟩, ⟨2, 2⟩],
       [⟨0, 1⟩, ⟨1, 0⟩, ⟨1, 1⟩, ⟨2, 0⟩]]
  | .J =>
      [[⟨0, 0⟩, ⟨1, 0⟩, ⟨1, 1⟩, ⟨1, 2⟩],
       [⟨0, 1⟩, ⟨0, 2⟩, ⟨1, 1⟩, ⟨2, 1⟩],
       [⟨1, 0⟩, ⟨1, 1⟩, ⟨1, 2⟩, ⟨2, 2⟩],
       [⟨0, 1⟩, ⟨1, 1⟩, ⟨2, 0⟩, ⟨2, 1⟩]]
  | .L =>
      [[⟨0, 2⟩, ⟨1, 0⟩, ⟨1, 1⟩, ⟨1, 2⟩],
       [⟨0, 1⟩, ⟨1, 1⟩, ⟨2, 1⟩, ⟨2, 2⟩],
       [⟨1, 0⟩, ⟨1, 1⟩, ⟨1, 2⟩, ⟨2, 0⟩],
       [⟨0, 0⟩, ⟨0, 1⟩, ⟨1, 1⟩, ⟨2, 1⟩]]

/-- `getCells(type, rotation)`: `TETROMINOES[type].states[rotation & 3]`. -/
def getCells (type : PieceType) (rotation : Nat) : List Cell :=
  (pieceStates type).getD (rotation % 4) []

/-- `getAbsoluteCells(type, rotation, originRow, originCol)`. -/
def getAbsoluteCells (type : PieceType) (rotation : Nat)
    (originRow originCol : Int) : List Cell :=
  (getCells type rotation).map fun c => ⟨c.row + originRow, c.col + originCol⟩

/-! ## Board.ts -/

def BOARD_COLS : Nat := 10
def BOARD_VISIBLE_ROWS : Nat := 20
def BOARD_BUFFER_ROWS : Nat := 20
def BOARD_ROWS : Nat := BOARD_VISIBLE_ROWS + BOARD_BUFFER_ROWS

/-- `CellValue = PieceType | null`. -/
abbrev CellValue := Option PieceType

/-- `Board.grid`: a list of rows, each a list of cell values. -/
abbrev Grid := List (List CellValue)

/-- `Board.createEmptyGrid()`. -/
def createEmptyGrid : Grid :=
  List.replicate BOARD_ROWS (List.replicate BOARD_COLS (none : CellValue))

/-- The value of `this.grid[row][col]` for in-range natural indices. -/
def cellAt (g : Grid) (row col : Nat) : CellValue :=
  (g.getD row []).getD col none

/-- Whether `(row, col)` is inside `[0, BOARD_ROWS) × [0, BOARD_COLS)`. -/
def inBounds (row col : Int) : Bool :=
  0 ≤ row && row < (BOARD_ROWS : Int) && 0 ≤ col && col < (BOARD_COLS : Int)

/-- `Board.getCell(row, col) ≠ null`: out of bounds returns `'wall'`, which is
not `null`, so this is true off the board and true on occupied cells.  This is
exactly the occupancy test `checkTSpin` applies to each corner. -/
def cellOccupiedOrWall (g : Grid) (row col : Int) : Bool :=
  if inBounds row col then cellAt g row.toNat col.toNat ≠ none else true

/-- `Board.isValidPosition`: all four absolute cells in bounds and empty. -/
def isValidPosition (g : Grid) (type : PieceType) (rotation : Nat)
    (originRow originCol : Int) : Bool :=
  (getAbsoluteCells type rotation originRow originCol).all fun c =>
    inBounds c.row c.col && cellAt g c.row.toNat c.col.toNat = none

/-- Write value `v` at `this.grid[row][col]` (in-range natural indices). -/
def setCell (g : Grid) (row col : Nat) (v : CellValue) : Grid :=
  g.set row ((g.getD row []).set col v)

/-- `Board.lockPiece`: write the piece type into each of its four absolute
cells that is in bounds; out-of-bounds cells are skipped silently. -/
def lockPiece (g : Grid) (type : PieceType) (rotation : Nat)
    (originRow originCol : Int) : Grid :=
  (getAbsoluteCells type rotation originRow originCol).foldl
    (fun acc c =>
      if inBounds c.row c.col then setCell acc c.row.toNat c.col.toNat (some type)
      else acc)
    g

/-- A row is complete iff every cell is non-null
(`this.grid[row].every(cell => cell !== null)`). -/
def isCompleteRow (row : List CellValue) : Bool :=
  row.all fun c => c ≠ none

/-- The `clearedRows` array built by `Board.clearLines`: the indices of
complete rows, collected scanning from row `BOARD_ROWS - 1` down to row 0. -/
def clearedRowsOf (g : Grid) : List Nat :=
  ((List.range BOARD_ROWS).reverse).filter fun r => isCompleteRow (g.getD r [])

/-- `Board.clearLines`: collect the indices of complete rows scanning from
row `BOARD_ROWS - 1` down to row 0, drop those rows from the grid keeping the
rest in order, and prepend an equal number of empty rows.  Returns the new
grid, the count, and the collected indices. -/
def clearLines (g : Grid) : Grid × Nat × List Nat :=
  let clearedRows := clearedRowsOf g
  if clearedRows.length = 0 then (g, 0, [])
  else
    let newGrid := ((g.enum).filter fun p => !(clearedRows.contains p.1)).map Prod.snd
    let emptyRows : Grid :=
      List.replicate clearedRows.length (List.replicate BOARD_COLS (none : CellValue))
    (emptyRows ++ newGrid, clearedRows.length, clearedRows)

/-- One step of `Board.getGhostRow`'s descent loop, with explicit fuel.
The loop moves the origin down one row while the position below is valid;
on a 40-row board a valid position can descend at most 40 rows, so any fuel
of at least `BOARD_ROWS` makes this the exact loop of the source. -/
def ghostRowAux (g : Grid) (type : PieceType) (rotation : Nat)
    (originCol : Int) : Nat → Int → Int
  | 0, ghostRow => ghostRow
  | fuel + 1, ghostRow =>
      if isValidPosition g type rotation (ghostRow + 1) originCol then
        ghostRowAux g type rotation originCol fuel (ghostRow + 1)
      else ghostRow

/-- `Board.getGhostRow`. -/
def getGhostRow (g : Grid) (type : PieceType) (rotation : Nat)
    (originRow originCol : Int) : Int :=
  ghostRowAux g type rotation originCol BOARD_ROWS originRow

/-! ## RotationSystem.ts -/

/-- `JLSTZ_KICKS`: kick tests `(colOffset, rowOffset)` keyed by
`fromState>toState`; `none` for key pairs absent from the table
(the source then returns `null`). -/
def jlstzKicks : Nat → Nat → Option (List (Int × Int))
  | 0, 1 => some [(0, 0), (-1, 0), (-1, -1), (0, 2), (-1, 2)]
  | 1, 0 => some [(0, 0), (1, 0), (1, 1), (0, -2), (1, -2)]
  | 1, 2 => some [(0, 0), (1, 0), (1, 1), (0, -2), (1, -2)]
  | 2, 1 => some [(0, 0), (-1, 0), (-1, -1), (0, 2), (-1, 2)]
  | 2, 3 => some [(0, 0), (1, 0), (1, -1), (0, 2), (1, 2)]
  | 3, 2 => some [(0, 0), (-1, 0), (-1, 1), (0, -2), (-1, -2)]
  | 3, 0 => some [(0, 0), (-1, 0), (-1, 1), (0, -2), (-1, -2)]
  | 0, 3 => some [(0, 0), (1, 0), (1, -1), (0, 2), (1, 2)]
  | _, _ => none

/-- `I_KICKS`: the I piece's kick table. -/
def iKicks : Nat → Nat → Option (List (Int × Int))
  | 0, 1 => some [(0, 0), (-2, 0), (1, 0), (-2, 1), (1, -2)]
  | 1, 0 => some [(0, 0), (2, 0), (-1, 0), (2, -1), (-1, 2)]
  | 1, 2 => some [(0, 0), (-1, 0), (2, 0), (-1, -2), (2, 1)]
  | 2, 1 => some [(0, 0), (1, 0), (-2, 0), (1, 2), (-2, -1)]
  | 2, 3 => some [(0, 0), (2, 0), (-1, 0), (2, -1), (-1, 2)]
  | 3, 2 => some [(0, 0), (-2, 0), (1, 0), (-2, 1), (1, -2)]
  | 3, 0 => some [(0, 0), (1, 0), (-2, 0), (1, 2), (-2, -1)]
  | 0, 3 => some [(0, 0), (-1, 0), (2, 0), (-1, -2), (2, 1)]
  | _, _ => none

structure RotationResult where
  newRotation : Nat
  kickCol : Int
  kickRow : Int
  isTSpin : Bool
  isTSpinMini : Bool
deriving DecidableEq, Repr

/-- `checkTSpin(board, rotation, originRow, originCol, kickColOff, kickRowOff)`:
the 3-corner T-spin rule as implemented.  The "center" is `cells[2]` of the
T's rotation state, its four diagonal neighbours are tested with
`getCell(...) !== null`, and the front corners are selected by rotation
state.  Returns `(isTSpin, isMini)`. -/
def checkTSpin (g : Grid) (rotation : Nat) (originRow originCol : Int)
    (kickColOff kickRowOff : Int) : Bool × Bool :=
  let cells := getCells PieceType.T rotation
  let center := cells.getD 2 ⟨0, 0⟩
  let centerRow := originRow + center.row
  let centerCol := originCol + center.col
  let corners : List Cell :=
    [⟨centerRow - 1, centerCol - 1⟩, ⟨centerRow - 1, centerCol + 1⟩,
     ⟨centerRow + 1, centerCol - 1⟩, ⟨centerRow + 1, centerCol + 1⟩]
  let cornerOccupied := corners.map fun c => cellOccupiedOrWall g c.row c.col
  let occupiedCount := (cornerOccupied.filter id).length
  if occupiedCount < 3 then (false, false)
  else
    let frontCorners : Nat × Nat :=
      match rotation with
      | 0 => (0, 1)
      | 1 => (1, 3)
      | 2 => (2, 3)
      | 3 => (0, 2)
      | _ => (0, 1)
    let bothFrontOccupied :=
      cornerOccupied.getD frontCorners.1 false && cornerOccupied.getD frontCorners.2 false
    if bothFrontOccupied then (true, false)
    else
      let isSignificantKick := kickColOff.natAbs > 1 || kickRowOff.natAbs > 1
      if isSignificantKick then (true, false)
      else (true, true)

/-- The body of `tryRotate`'s kick loop: try each `(colOff, rowOff)` in order,
accepting the first whose shifted position is valid. -/
def tryKicks (g : Grid) (type : PieceType) (toState : Nat)
    (originRow originCol : Int) : List (Int × Int) → Option RotationResult
  | [] => none
  | (colOff, rowOff) :: rest =>
      let newCol := originCol + colOff
      let newRow := originRow - rowOff
      if isValidPosition g type toState newRow newCol then
        let tSpin :=
          if type = PieceType.T then checkTSpin g toState newRow newCol colOff rowOff
          else (false, false)
        some ⟨toState, colOff, -rowOff, tSpin.1, tSpin.2⟩
      else tryKicks g type toState originRow originCol rest

/-- `tryRotate(board, type, currentRotation, originRow, originCol, direction)`.
`direction` is `1` (CW) or `-1` (CCW); `toState = ((current+direction)%4+4)%4`. -/
def tryRotate (g : Grid) (type : PieceType) (currentRotation : Nat)
    (originRow originCol : Int) (direction : Int) : Option RotationResult :=
  let fromState := currentRotation % 4
  let toState := ((((currentRotation : Int) + direction) % 4 + 4) % 4).toNat
  if type = PieceType.O then none
  else
    match (if type = PieceType.I then iKicks fromState toState
           else jlstzKicks fromState toState) with
    | none => none
    | some kicks => tryKicks g type toState originRow originCol kicks

/-! ## Scoring.ts -/

inductive ClearType where
  | NONE | SINGLE | DOUBLE | TRIPLE | TETRIS
  | TSPIN_MINI | TSPIN_SINGLE | TSPIN_DOUBLE | TSPIN_TRIPLE | TSPIN_ZERO
deriving DecidableEq, Repr

/-- `BASE_SCORES`. -/
def BASE_SCORES : ClearType → Nat
  | .NONE => 0
  | .SINGLE => 100
  | .DOUBLE => 300
  | .TRIPLE => 500
  | .TETRIS => 800
  | .TSPIN_MINI => 100
  | .TSPIN_ZERO => 400
  | .TSPIN_SINGLE => 800
  | .TSPIN_DOUBLE => 1200
  | .TSPIN_TRIPLE => 1600

/-- `isDifficultClear`. -/
def isDifficultClear (clearType : ClearType) : Bool :=
  clearType = ClearType.TETRIS ||
    clearType = ClearType.TSPIN_SINGLE ||
    clearType = ClearType.TSPIN_DOUBLE ||
    clearType = ClearType.TSPIN_TRIPLE ||
    clearType = ClearType.TSPIN_MINI

/-- `ScoringState`; `combo`/`backToBack` use the sentinel `-1`, so they are
integers while `score` only ever grows and is a natural number. -/
structure ScoringState where
  score : Nat
  combo : Int
  backToBack : Int
  lastClearType : ClearType
deriving DecidableEq, Repr

/-- `createScoringState()`. -/
def createScoringState : ScoringState :=
  ⟨0, -1, -1, ClearType.NONE⟩

structure ClearResult where
  clearType : ClearType
  scoreAwarded : Nat
  isBackToBack : Bool
  combo : Int
deriving DecidableEq, Repr

/-- `determineClearType(linesCleared, isTSpin, isTSpinMini)`. -/
def determineClearType (linesCleared : Nat) (isTSpin isTSpinMini : Bool) : ClearType :=
  if isTSpin || isTSpinMini then
    if isTSpinMini && linesCleared ≤ 1 then
      if linesCleared = 0 then ClearType.TSPIN_ZERO else ClearType.TSPIN_MINI
    else
      match linesCleared with
      | 0 => ClearType.TSPIN_ZERO
      | 1 => ClearType.TSPIN_SINGLE
      | 2 => ClearType.TSPIN_DOUBLE
      | 3 => ClearType.TSPIN_TRIPLE
      | _ => ClearType.TSPIN_TRIPLE
  else
    match linesCleared with
    | 0 => ClearType.NONE
    | 1 => ClearType.SINGLE
    | 2 => ClearType.DOUBLE
    | 3 => ClearType.TRIPLE
    | _ => ClearType.TETRIS

/-- `processLineClear(state, linesCleared, level, isTSpin, isTSpinMini)`,
returning the updated state together with the `ClearResult`.
`Math.floor(score * 1.5)` on the integer `score` is `score * 3 / 2` in `Nat`. -/
def processLineClear (state : ScoringState) (linesCleared level : Nat)
    (isTSpin isTSpinMini : Bool) : ScoringState × ClearResult :=
  let clearType := determineClearType linesCleared isTSpin isTSpinMini
  if clearType = ClearType.NONE && !isTSpin && !isTSpinMini then
    ({ state with combo := -1, lastClearType := ClearType.NONE },
     ⟨clearType, 0, false, -1⟩)
  else
    let combo := state.combo + 1
    let score0 := BASE_SCORES clearType * level
    let isBackToBack := isDifficultClear clearType && state.backToBack ≥ 0
    let score1 := if isBackToBack then score0 * 3 / 2 else score0
    let backToBack :=
      if isDifficultClear clearType then max 0 state.backToBack + 1
      else if linesCleared > 0 then -1
      else state.backToBack
    let score2 := if combo > 0 then score1 + 50 * combo.toNat * level else score1
    ({ state with
        score := state.score + score2
        combo := combo
        backToBack := backToBack
        lastClearType := clearType },
     ⟨clearType, score2, isBackToBack, combo⟩)

/-- `scoreSoftDrop(state, cells)`. -/
def scoreSoftDrop (state : ScoringState) (cells : Nat) : ScoringState :=
  { state with score := state.score + cells }

/-- `scoreHardDrop(state, cells)`. -/
def scoreHardDrop (state : ScoringState) (cells : Nat) : ScoringState :=
  { state with score := state.score + cells * 2 }

/-! ## GameMode.ts -/

inductive GameModeType where
  | MARATHON | SPRINT | ULTRA
deriving DecidableEq, Repr

/-- `GameModeConfig` (the cosmetic `name`/`description` strings are omitted).
`linesPerLevel` is a function field exactly as in the source; `timeLimit`
is in milliseconds (`0` = no limit), modelled as `ℚ` because it is compared
with the accumulated `elapsedMs`. -/
structure GameModeConfig where
  type : GameModeType
  startLevel : Nat
  linesPerLevel : Nat → Nat
  maxLevel : Nat
  timeLimit : ℚ
  lineTarget : Nat
  isCompletable : Bool

/-- `isModeCompleted(mode, level, totalLines, elapsedMs)`. -/
def isModeCompleted (mode : GameModeConfig) (level totalLines : Nat) : Bool :=
  if !mode.isCompletable then false
  else
    match mode.type with
    | GameModeType.MARATHON => level > mode.maxLevel
    | GameModeType.SPRINT => totalLines ≥ mode.lineTarget
    | GameModeType.ULTRA => false

/-- `isTimeExpired(mode, elapsedMs)`. -/
def isTimeExpired (mode : GameModeConfig) (elapsedMs : ℚ) : Bool :=
  mode.timeLimit > 0 && elapsedMs ≥ mode.timeLimit

/-- The `while` loop of `calculateLevel`: subtract `linesPerLevel(level)`
from the remainder while possible.  Terminates because each iteration
removes `needed ≥ 1` lines from the remainder. -/
def calcLevelLoop (linesPerLevel : Nat → Nat) (level linesRemaining : Nat) : Nat :=
  if 0 < linesRemaining then
    let needed := linesPerLevel level
    if needed = 0 then level
    else if needed ≤ linesRemaining then
      calcLevelLoop linesPerLevel (level + 1) (linesRemaining - needed)
    else level
  else level
termination_by linesRemaining
decreasing_by omega

/-- `calculateLevel(mode, startLevel, totalLines)`. -/
def calculateLevel (mode : GameModeConfig) (startLevel totalLines : Nat) : Nat :=
  min (calcLevelLoop mode.linesPerLevel startLevel totalLines) (mode.maxLevel + 1)

/-- `getGravityInterval(level)`:
`max(1000 * (0.8 - (max(1,level)-1)*0.007)^(max(1,level)-1), 16)`,
evaluated in exact rational arithmetic. -/
def getGravityInterval (level : Nat) : ℚ :=
  let l := max 1 level - 1
  max ((0.8 - l * 0.007) ^ l * 1000) 16

/-- `MARATHON_MODE`. -/
def MARATHON_MODE : GameModeConfig :=
  ⟨GameModeType.MARATHON, 1, fun _ => 10, 15, 0, 150, true⟩

/-- `SPRINT_MODE`. -/
def SPRINT_MODE : GameModeConfig :=
  ⟨GameModeType.SPRINT, 1, fun _ => 0, 1, 0, 40, true⟩

/-- `ULTRA_MODE`; its time limit is `2 * 60 * 1000` ms, written as the
literal 120000. -/
def ULTRA_MODE : GameModeConfig :=
  ⟨GameModeType.ULTRA, 1, fun _ => 10, 15, 120000, 0, false⟩

/-! ## BagRandomizer.ts

The injected random source is modelled as a pure stream `rng : Nat → ℚ`
together with a call counter, so that each `rng()` call in the source reads
the next element of the stream. -/

def ALL_PIECE_TYPES : List PieceType :=
  [PieceType.I, PieceType.O, PieceType.T,
   PieceType.S, PieceType.Z, PieceType.J, PieceType.L]

/-- The destructuring swap `[arr[i], arr[j]] = [arr[j], arr[i]]`.  Reads of an
out-of-range index produce junk (JS `undefined`), modelled by the `getD`
default; writes past the end are dropped.  Both indices are in range whenever
the random source yields values in `[0, 1)`. -/
def swapIdx (l : List PieceType) (i j : Nat) : List PieceType :=
  (l.set i (l.getD j PieceType.I)).set j (l.getD i PieceType.I)

/-- The Fisher–Yates loop of `shuffle`, with current index `i + 1` counting
down to 1: `j = Math.floor(rng() * (i + 1))`, then swap.  Threads the rng
call counter and returns it alongside the shuffled list. -/
def shuffleAux (rng : Nat → ℚ) : Nat → Nat → List PieceType → List PieceType × Nat
  | ctr, 0, arr => (arr, ctr)
  | ctr, i + 1, arr =>
      let j := (Rat.floor (rng ctr * (i + 2))).toNat
      shuffleAux rng (ctr + 1) i (swapIdx arr (i + 1) j)

/-- `shuffle(arr)`: Fisher–Yates from index `arr.length - 1` down to 1. -/
def shuffle (rng : Nat → ℚ) (ctr : Nat) (arr : List PieceType) :
    List PieceType × Nat :=
  shuffleAux rng ctr (arr.length - 1) arr

/-- The `BagRandomizer` instance state: the random stream, how many rng calls
have been made, and the two bags. -/
structure BagState where
  rng : Nat → ℚ
  ctr : Nat
  bag : List PieceType
  nextBag : List PieceType

/-- The `BagRandomizer` constructor: `fillBag(); fillNextBag()`. -/
def mkBagRandomizer (rng : Nat → ℚ) : BagState :=
  let b := shuffle rng 0 ALL_PIECE_TYPES
  let nb := shuffle rng b.2 ALL_PIECE_TYPES
  ⟨rng, nb.2, b.1, nb.1⟩

/-- `BagRandomizer.next()`: when the current bag is empty, promote the next
bag and shuffle a fresh one; then pop the front of the current bag. -/
def bagNext (s : BagState) : PieceType × BagState :=
  if s.bag.isEmpty then
    let bag := s.nextBag
    let nb := shuffle s.rng s.ctr ALL_PIECE_TYPES
    (bag.headD PieceType.I, ⟨s.rng, nb.2, bag.tail, nb.1⟩)
  else
    (s.bag.headD PieceType.I, ⟨s.rng, s.ctr, s.bag.tail, s.nextBag⟩)

/-- `BagRandomizer.preview(count)`: the first `count` elements of
`[...bag, ...nextBag]`, truncated; the instance state is not touched. -/
def bagPreview (s : BagState) (count : Nat) : List PieceType :=
  (s.bag ++ s.nextBag).take count

/-- `count` successive `next()` draws: the drawn pieces in order and the
final randomizer state. -/
def drawN (s : BagState) : Nat → List PieceType × BagState
  | 0 => ([], s)
  | n + 1 =>
      let p := bagNext s
      let rest := drawN p.2 n
      (p.1 :: rest.1, rest.2)

/-! ## GameState.ts -/

inductive GameStatus where
  | PLAYING | PAUSED | GAME_OVER | COMPLETED
deriving DecidableEq, Repr

structure ActivePiece where
  type : PieceType
  rotation : Nat
  row : Int
  col : Int
deriving DecidableEq, Repr

/-- The tags of `GameEvent`; payloads are informational and not modelled. -/
inductive EventTag where
  | line_clear | hard_drop | lock | hold | game_over | level_up | completed
deriving DecidableEq, Repr

def LOCK_DELAY_MS : ℚ := 500
def MAX_LOCK_RESETS : Nat := 15
def SPAWN_COL : Int := 3
def NEXT_QUEUE_SIZE : Nat := 5

/-- `getSpawnRow(type)`. -/
def getSpawnRow (type : PieceType) : Int :=
  if type = PieceType.I then (BOARD_BUFFER_ROWS : Int) - 2
  else (BOARD_BUFFER_ROWS : Int) - 1

/-- The mutable fields of a `GameState` instance.  Events are modelled by
appending a tag to `events` at each `emitEvent` call. -/
structure GState where
  grid : Grid
  scoring : ScoringState
  mode : GameModeConfig
  randomizer : BagState
  status : GameStatus
  currentPiece : Option ActivePiece
  holdPiece : Option PieceType
  holdUsed : Bool
  nextQueue : List PieceType
  level : Nat
  totalLines : Nat
  elapsedMs : ℚ
  gravityAccumulator : ℚ
  lockDelayTimer : ℚ
  lockDelayActive : Bool
  lockResetCount : Nat
  lastWasTSpin : Bool
  lastWasTSpinMini : Bool
  lastMoveWasRotation : Bool
  events : List EventTag

/-- `GameState.spawnPiece()`: pop the queue front, push a fresh draw, place
the piece at the spawn position; on collision enter GAME_OVER (recording the
piece), otherwise reset all per-piece timers and flags. -/
def spawnPiece (st : GState) : Bool × GState :=
  let type := st.nextQueue.headD PieceType.I
  let d := bagNext st.randomizer
  let nextQueue := st.nextQueue.tail ++ [d.1]
  let spawnRow := getSpawnRow type
  if !(isValidPosition st.grid type 0 spawnRow SPAWN_COL) then
    (false, { st with randomizer := d.2, nextQueue := nextQueue,
                      status := GameStatus.GAME_OVER,
                      currentPiece := some ⟨type, 0, spawnRow, SPAWN_COL⟩,
                      events := st.events ++ [EventTag.game_over] })
  else
    (true, { st with randomizer := d.2, nextQueue := nextQueue,
                     currentPiece := some ⟨type, 0, spawnRow, SPAWN_COL⟩,
                     holdUsed := false, lockDelayActive := false,
                     lockDelayTimer := 0, lockResetCount := 0,
                     gravityAccumulator := 0, lastWasTSpin := false,
                     lastWasTSpinMini := false, lastMoveWasRotation := false })

/-- `GameState.startLockDelay()`. -/
def startLockDelay (st : GState) : GState :=
  if !st.lockDelayActive then
    { st with lockDelayActive := true, lockDelayTimer := 0 }
  else st

/-- `GameState.resetLockDelay()`. -/
def resetLockDelay (st : GState) : GState :=
  if st.lockDelayActive && st.lockResetCount < MAX_LOCK_RESETS then
    { st with lockDelayTimer := 0, lockResetCount := st.lockResetCount + 1 }
  else st

/-- `GameState.applyGravity()`. -/
def applyGravity (st : GState) : GState :=
  match st.currentPiece with
  | none => st
  | some p =>
      if isValidPosition st.grid p.type p.rotation (p.row + 1) p.col then
        { st with currentPiece := some { p with row := p.row + 1 },
                  lastMoveWasRotation := false }
      else startLockDelay st

/-- `GameState.lockCurrentPiece()`: lock, clear lines, score, update lines
and level, check completion, then spawn the next piece. -/
def lockCurrentPiece (st : GState) : GState :=
  match st.currentPiece with
  | none => st
  | some p =>
      let st := { st with grid := lockPiece st.grid p.type p.rotation p.row p.col,
                          events := st.events ++ [EventTag.lock] }
      let cleared := clearLines st.grid
      let st := { st with grid := cleared.1 }
      let count := cleared.2.1
      let isTSpin := st.lastMoveWasRotation && st.lastWasTSpin
      let isTSpinMini := st.lastMoveWasRotation && st.lastWasTSpinMini
      let scored := processLineClear st.scoring count st.level isTSpin isTSpinMini
      let st := { st with scoring := scored.1 }
      if count > 0 then
        let st := { st with totalLines := st.totalLines + count,
                            events := st.events ++ [EventTag.line_clear] }
        let newLevel := calculateLevel st.mode st.mode.startLevel st.totalLines
        let st :=
          if newLevel > st.level then
            { st with level := newLevel, events := st.events ++ [EventTag.level_up] }
          else st
        if isModeCompleted st.mode st.level st.totalLines then
          { st with status := GameStatus.COMPLETED,
                    events := st.events ++ [EventTag.completed] }
        else (spawnPiece st).2
      else (spawnPiece st).2

/-- The gravity `while` loop of `tick`, with explicit fuel.  Each iteration
subtracts `gravityMs ≥ 16` (see `le_getGravityInterval`) from the
accumulator, so `⌈accumulator⌉` iterations always suffice; with that fuel
this is the exact loop of the source. -/
def gravityLoop (gravityMs : ℚ) : Nat → GState → GState
  | 0, st => st
  | fuel + 1, st =>
      if st.gravityAccumulator ≥ gravityMs then
        gravityLoop gravityMs fuel
          (applyGravity { st with gravityAccumulator := st.gravityAccumulator - gravityMs })
      else st

/-- `GameState.tick(deltaMs)`. -/
def tick (deltaMs : ℚ) (st : GState) : GState :=
  match st.currentPiece with
  | none => st
  | some _ =>
      if st.status ≠ GameStatus.PLAYING then st
      else
        let st := { st with elapsedMs := st.elapsedMs + deltaMs }
        if isTimeExpired st.mode st.elapsedMs then
          if st.mode.isCompletable then
            { st with status := GameStatus.GAME_OVER,
                      events := st.events ++ [EventTag.game_over] }
          else
            { st with status := GameStatus.COMPLETED,
                      events := st.events ++ [EventTag.completed] }
        else
          let gravityMs := getGravityInterval st.level
          if st.lockDelayActive then
            let st := { st with lockDelayTimer := st.lockDelayTimer + deltaMs }
            if st.lockDelayTimer ≥ LOCK_DELAY_MS then lockCurrentPiece st else st
          else
            let st := { st with gravityAccumulator := st.gravityAccumulator + deltaMs }
            gravityLoop gravityMs (Int.toNat ⌈st.gravityAccumulator⌉) st

/-- `GameState.tryMove(rowDelta, colDelta)`. -/
def tryMove (st : GState) (rowDelta colDelta : Int) : Bool × GState :=
  match st.currentPiece with
  | none => (false, st)
  | some p =>
      if st.status ≠ GameStatus.PLAYING then (false, st)
      else
        let newRow := p.row + rowDelta
        let newCol := p.col + colDelta
        if isValidPosition st.grid p.type p.rotation newRow newCol then
          let st := { st with
            currentPiece := some { p with row := newRow, col := newCol },
            lastMoveWasRotation := false }
          let st := resetLockDelay st
          let st :=
            if !(isValidPosition st.grid p.type p.rotation (newRow + 1) newCol) then
              startLockDelay st
            else if st.lockDelayActive then { st with lockDelayActive := false }
            else st
          (true, st)
        else (false, st)

def moveLeft (st : GState) : Bool × GState := tryMove st 0 (-1)

def moveRight (st : GState) : Bool × GState := tryMove st 0 1

/-- `GameState.softDrop()`. -/
def softDrop (st : GState) : Bool × GState :=
  match st.currentPiece with
  | none => (false, st)
  | some p =>
      if st.status ≠ GameStatus.PLAYING then (false, st)
      else if isValidPosition st.grid p.type p.rotation (p.row + 1) p.col then
        let st := { st with
          currentPiece := some { p with row := p.row + 1 },
          scoring := scoreSoftDrop st.scoring 1,
          lastMoveWasRotation := false }
        let st :=
          if !(isValidPosition st.grid p.type p.rotation (p.row + 2) p.col) then
            startLockDelay st
          else st
        (true, st)
      else (false, st)

/-- `GameState.hardDrop()`. -/
def hardDrop (st : GState) : GState :=
  match st.currentPiece with
  | none => st
  | some p =>
      if st.status ≠ GameStatus.PLAYING then st
      else
        let ghostRow := getGhostRow st.grid p.type p.rotation p.row p.col
        let dropDistance := (ghostRow - p.row).toNat
        let st := { st with
          scoring := scoreHardDrop st.scoring dropDistance,
          currentPiece := some { p with row := ghostRow },
          lastMoveWasRotation := false,
          events := st.events ++ [EventTag.hard_drop] }
        lockCurrentPiece st

/-- `GameState.tryRotation(direction)`. -/
def tryRotation (st : GState) (direction : Int) : Bool × GState :=
  match st.currentPiece with
  | none => (false, st)
  | some p =>
      if st.status ≠ GameStatus.PLAYING then (false, st)
      else
        match tryRotate st.grid p.type p.rotation p.row p.col direction with
        | none => (false, st)
        | some result =>
            let newPiece : ActivePiece :=
              { p with rotation := result.newRotation,
                       col := p.col + result.kickCol,
                       row := p.row + result.kickRow }
            let st := { st with currentPiece := some newPiece,
                                lastMoveWasRotation := true,
                                lastWasTSpin := result.isTSpin,
                                lastWasTSpinMini := result.isTSpinMini }
            let st := resetLockDelay st
            let st :=
              if !(isValidPosition st.grid p.type result.newRotation
                     (newPiece.row + 1) newPiece.col) then
                startLockDelay st
              else if st.lockDelayActive then { st with lockDelayActive := false }
              else st
            (true, st)

def rotateCW (st : GState) : Bool × GState := tryRotation st 1

def rotateCCW (st : GState) : Bool × GState := tryRotation st (-1)

/-- The common tail of `GameState.hold()`: mark hold used, reset all
per-piece timers and flags, emit the hold event, return `true`. -/
def holdFinish (st : GState) : Bool × GState :=
  (true, { st with holdUsed := true, lockDelayActive := false,
                   lockDelayTimer := 0, lockResetCount := 0,
                   gravityAccumulator := 0, lastMoveWasRotation := false,
                   lastWasTSpin := false, lastWasTSpinMini := false,
                   events := st.events ++ [EventTag.hold] })

/-- `GameState.hold()`. -/
def hold (st : GState) : Bool × GState :=
  match st.currentPiece with
  | none => (false, st)
  | some p =>
      if st.holdUsed then (false, st)
      else if st.status ≠ GameStatus.PLAYING then (false, st)
      else
        let currentType := p.type
        match st.holdPiece with
        | some holdType =>
            let st := { st with holdPiece := some currentType }
            let spawnRow := getSpawnRow holdType
            if !(isValidPosition st.grid holdType 0 spawnRow SPAWN_COL) then
              (false, { st with status := GameStatus.GAME_OVER,
                                events := st.events ++ [EventTag.game_over] })
            else
              holdFinish { st with
                currentPiece := some ⟨holdType, 0, spawnRow, SPAWN_COL⟩ }
        | none =>
            let st := { st with holdPiece := some currentType }
            holdFinish (spawnPiece st).2

/-- `GameState.togglePause()`. -/
def togglePause (st : GState) : GState :=
  if st.status = GameStatus.PLAYING then { st with status := GameStatus.PAUSED }
  else if st.status = GameStatus.PAUSED then { st with status := GameStatus.PLAYING }
  else st

/-- The `GameState` constructor: fresh board and scoring state, seed the
randomizer, draw the five-piece next queue, and spawn the first piece. -/
def mkGameState (mode : GameModeConfig) (rng : Nat → ℚ) : GState :=
  let q := drawN (mkBagRandomizer rng) NEXT_QUEUE_SIZE
  (spawnPiece
    { grid := createEmptyGrid, scoring := createScoringState, mode := mode,
      randomizer := q.2, status := GameStatus.PLAYING, currentPiece := none,
      holdPiece := none, holdUsed := false, nextQueue := q.1,
      level := mode.startLevel, totalLines := 0, elapsedMs := 0,
      gravityAccumulator := 0, lockDelayTimer := 0, lockDelayActive := false,
      lockResetCount := 0, lastWasTSpin := false, lastWasTSpinMini := false,
      lastMoveWasRotation := false, events := [] }).2

/-! ## Concrete example states and auxiliary definitions used by the
theorems below -/

/-- A board with three cells filled at the diagonal neighbours of the T
pivot that results from rotating a T from origin (30,3) into state 1:
the pivot lands at (31,4) and its corners (30,3), (30,5), (32,3) are
occupied. -/
def tSpinBugGrid : Grid :=
  setCell (setCell (setCell createEmptyGrid 30 3 (some PieceType.J))
    30 5 (some PieceType.J)) 32 3 (some PieceType.J)

/-- A concrete mid-game state: marathon mode, empty board, a T piece
resting at the spawn position, nothing held. -/
def baseState : GState :=
  { grid := createEmptyGrid, scoring := createScoringState,
    mode := MARATHON_MODE, randomizer := mkBagRandomizer (fun _ => 0),
    status := GameStatus.PLAYING,
    currentPiece := some ⟨PieceType.T, 0, 19, 3⟩, holdPiece := none,
    holdUsed := false,
    nextQueue := [PieceType.I, PieceType.O, PieceType.S, PieceType.Z, PieceType.J],
    level := 1, totalLines := 0, elapsedMs := 0, gravityAccumulator := 0,
    lockDelayTimer := 0, lockDelayActive := false, lockResetCount := 0,
    lastWasTSpin := false, lastWasTSpinMini := false,
    lastMoveWasRotation := false, events := [] }

/-- `baseState` in ultra mode with the full 120 s already elapsed. -/
def ultraNearEnd : GState :=
  { baseState with mode := ULTRA_MODE, elapsedMs := 120000 }

/-- `baseState` after the game has been lost. -/
def gameOverState : GState :=
  { baseState with status := GameStatus.GAME_OVER }

/-- `baseState` holding an I piece whose spawn position (row 18, the I
occupies row 19, columns 3–6) is blocked at (19,4): a swap-hold must fail. -/
def holdBlockedState : GState :=
  { baseState with holdPiece := some PieceType.I,
                   grid := setCell createEmptyGrid 19 4 (some PieceType.J) }

/-- A board whose bottom row (row 39) is completely filled. -/
def oneFullRowGrid : Grid :=
  List.replicate 39 (List.replicate BOARD_COLS (none : CellValue)) ++
    [List.replicate BOARD_COLS (some PieceType.I)]

/-- One clockwise `tryRotate` step acting on (rotation, originRow, originCol),
adopting the returned rotation state and adding the returned kick offsets
to the origin. -/
def rotStepCW (g : Grid) (t : PieceType) (s : Nat × Int × Int) :
    Option (Nat × Int × Int) :=
  match tryRotate g t s.1 s.2.1 s.2.2 1 with
  | none => none
  | some res => some (res.newRotation, s.2.1 + res.kickRow, s.2.2 + res.kickCol)

/-- The states reachable from construction through the public operations. -/
inductive Reachable : GState → Prop where
  | init (mode : GameModeConfig) (rng : Nat → ℚ) : Reachable (mkGameState mode rng)
  | tick (d : ℚ) (st : GState) : Reachable st → Reachable (tick d st)
  | moveLeft (st : GState) : Reachable st → Reachable (moveLeft st).2
  | moveRight (st : GState) : Reachable st → Reachable (moveRight st).2
  | softDrop (st : GState) : Reachable st → Reachable (softDrop st).2
  | hardDrop (st : GState) : Reachable st → Reachable (hardDrop st)
  | rotateCW (st : GState) : Reachable st → Reachable (rotateCW st).2
  | rotateCCW (st : GState) : Reachable st → Reachable (rotateCCW st).2
  | hold (st : GState) : Reachable st → Reachable (hold st).2
  | togglePause (st : GState) : Reachable st → Reachable (togglePause st)

/-- The piece invariant: while the game is live (playing or paused), an
active piece exists and sits at a valid position on the board. -/
def PieceOk (st : GState) : Prop :=
  st.status = GameStatus.PLAYING ∨ st.status = GameStatus.PAUSED →
    ∃ p, st.currentPiece = some p ∧
      isValidPosition st.grid p.type p.rotation p.row p.col = true

/-! ## Theorems -/

/-- C1: the claim says the T-spin classification inspects the four diagonal
neighbours of the T's fixed pivot cell — offset (row 1, col 1), shared by all
four rotation states — at the post-kick position.  The code instead uses
`cells[2]`, which is offset (1, 2) for rotation states 1 and 2 and is not
shared by all states (it is absent from state 3).  Concretely, after a
successful rotation of a T from origin (30,3) into state 1 on
`tSpinBugGrid`, three diagonal neighbours of the pivot (31,4) are occupied,
yet the code reports no T-spin at all because it inspects the neighbours of
(31,5). -/
theorem checkTSpin_uses_nonpivot_center :
    (getCells PieceType.T 1).getD 2 ⟨0, 0⟩ = ⟨1, 2⟩ ∧
    (getCells PieceType.T 2).getD 2 ⟨0, 0⟩ = ⟨1, 2⟩ ∧
    (∀ r : Fin 4, Cell.mk 1 1 ∈ getCells PieceType.T r.val) ∧
    Cell.mk 1 2 ∉ getCells PieceType.T 3 ∧
    tryRotate tSpinBugGrid PieceType.T 0 30 3 1 =
      some ⟨1, 0, 0, false, false⟩ ∧
    cellOccupiedOrWall tSpinBugGrid 30 3 = true ∧
    cellOccupiedOrWall tSpinBugGrid 30 5 = true ∧
    cellOccupiedOrWall tSpinBugGrid 32 3 = true := by
  refine ⟨rfl, rfl, by decide, by decide, by decide, rfl, rfl, rfl⟩

/-- Auxiliary: a difficult clear type is never `NONE`. -/
theorem isDifficultClear_ne_none {ct : ClearType} (h : isDifficultClear ct = true) :
    ct ≠ ClearType.NONE := by
  cases ct <;> simp_all [isDifficultClear]

/-- Auxiliary: with at least one line cleared the clear type is never `NONE`. -/
theorem determineClearType_ne_none {lines : Nat} {ts tsm : Bool} (h : 0 < lines) :
    determineClearType lines ts tsm ≠ ClearType.NONE := by
  unfold determineClearType
  split
  · split
    · split <;> simp
    · split <;> simp
  · split <;> simp_all

/-- C4: for any scoring state with the documented combo range, a difficult
clear (TETRIS / TSPIN_SINGLE / TSPIN_DOUBLE / TSPIN_TRIPLE / TSPIN_MINI)
arriving while `backToBack ≥ 0` awards
`floor(base × level × 1.5) + 50 × combo × level` (combo being the
post-increment value), reports `isBackToBack = true`, and increments
`backToBack`; a non-difficult clear with lines resets `backToBack` to −1.
Concretely at level 1: consecutive tetrises award 800 then 1250, and a
tetris following an intervening single is awarded without the ×1.5
multiplier (800 plus the 50×2×1 combo bonus). -/
theorem processLineClear_backToBack (s : ScoringState) (linesCleared level : Nat)
    (isTSpin isTSpinMini : Bool) (hcombo : -1 ≤ s.combo) :
    (isDifficultClear (determineClearType linesCleared isTSpin isTSpinMini) = true →
      0 ≤ s.backToBack →
        (processLineClear s linesCleared level isTSpin isTSpinMini).2.scoreAwarded =
          BASE_SCORES (determineClearType linesCleared isTSpin isTSpinMini) * level * 3 / 2
            + 50 * (s.combo + 1).toNat * level ∧
        (processLineClear s linesCleared level isTSpin isTSpinMini).2.isBackToBack = true ∧
        (processLineClear s linesCleared level isTSpin isTSpinMini).1.backToBack =
          s.backToBack + 1) ∧
    (isDifficultClear (determineClearType linesCleared isTSpin isTSpinMini) = false →
      0 < linesCleared →
        (processLineClear s linesCleared level isTSpin isTSpinMini).1.backToBack = -1) ∧
    (processLineClear createScoringState 4 1 false false).2.scoreAwarded = 800 ∧
    (processLineClear
      (processLineClear createScoringState 4 1 false false).1 4 1 false false).2.scoreAwarded
        = 1250 ∧
    (processLineClear (processLineClear
      (processLineClear createScoringState 4 1 false false).1 1 1 false false).1
        4 1 false false).2.isBackToBack = false ∧
    (processLineClear (processLineClear
      (processLineClear createScoringState 4 1 false false).1 1 1 false false).1
        4 1 false false).2.scoreAwarded = 800 * 1 + 50 * 2 * 1 := by
  refine ⟨?_, ?_, by decide, by decide, by decide, by decide⟩
  · intro hdiff hb2b
    have hne := isDifficultClear_ne_none hdiff
    unfold processLineClear
    rw [if_neg (by simp [hne])]
    have h1 : max 0 s.backToBack + 1 = s.backToBack + 1 := by omega
    by_cases hc : (0 : Int) < s.combo + 1
    · simp [hdiff, hb2b, hc, h1]
    · have hzero : s.combo + 1 = 0 := by omega
      simp [hdiff, hb2b, hc, h1, hzero]
  · intro hdiff hl
    have hne := @determineClearType_ne_none linesCleared isTSpin isTSpinMini hl
    unfold processLineClear
    rw [if_neg (by simp [hne])]
    simp [hdiff, hl]

/-- Witness for `processLineClear_backToBack` at a concrete scoring state. -/
theorem processLineClear_backToBack_witness :
    (-1 : Int) ≤ (ScoringState.mk 0 (-1) 0 ClearType.TETRIS).combo ∧
    isDifficultClear (determineClearType 4 false false) = true ∧
    (0 : Int) ≤ (ScoringState.mk 0 (-1) 0 ClearType.TETRIS).backToBack ∧
    (processLineClear ⟨0, -1, 0, ClearType.TETRIS⟩ 4 1 false false).2.isBackToBack = true :=
  ⟨by decide, by decide, by decide,
    ((processLineClear_backToBack ⟨0, -1, 0, ClearType.TETRIS⟩ 4 1 false false
      (by decide)).1 (by decide) (by decide)).2.1⟩

/-- C5: once the game is over or completed, every operation — `tick`, the
moves, drops, rotations, `hold` and `togglePause` — leaves the whole state
(board, scoring, level, lines, elapsed time, pieces, queue, events, …)
unchanged, and every boolean-returning operation returns `false`. -/
theorem terminal_state_frozen (st : GState) (d : ℚ)
    (h : st.status = GameStatus.GAME_OVER ∨ st.status = GameStatus.COMPLETED) :
    tick d st = st ∧ moveLeft st = (false, st) ∧ moveRight st = (false, st) ∧
    softDrop st = (false, st) ∧ hardDrop st = st ∧
    rotateCW st = (false, st) ∧ rotateCCW st = (false, st) ∧
    hold st = (false, st) ∧ togglePause st = st := by
  have hne : st.status ≠ GameStatus.PLAYING := by rcases h with h | h <;> simp [h]
  have hne' : st.status ≠ GameStatus.PAUSED := by rcases h with h | h <;> simp [h]
  refine ⟨?_, ?_, ?_, ?_, ?_, ?_, ?_, ?_, ?_⟩
  · cases hc : st.currentPiece <;> simp [tick, hc, hne]
  · cases hc : st.currentPiece <;> simp [moveLeft, tryMove, hc, hne]
  · cases hc : st.currentPiece <;> simp [moveRight, tryMove, hc, hne]
  · cases hc : st.currentPiece <;> simp [softDrop, hc, hne]
  · cases hc : st.currentPiece <;> simp [hardDrop, hc, hne]
  · cases hc : st.currentPiece <;> simp [rotateCW, tryRotation, hc, hne]
  · cases hc : st.currentPiece <;> simp [rotateCCW, tryRotation, hc, hne]
  · cases hc : st.currentPiece <;> cases hu : st.holdUsed <;> simp [hold, hc, hu, hne]
  · simp [togglePause, hne, hne']

/-- Witness for `terminal_state_frozen` at a concrete game-over state. -/
theorem terminal_state_frozen_witness :
    (gameOverState.status = GameStatus.GAME_OVER ∨
      gameOverState.status = GameStatus.COMPLETED) ∧
    (tick 16 gameOverState = gameOverState ∧
      moveLeft gameOverState = (false, gameOverState) ∧
      moveRight gameOverState = (false, gameOverState) ∧
      softDrop gameOverState = (false, gameOverState) ∧
      hardDrop gameOverState = gameOverState ∧
      rotateCW gameOverState = (false, gameOverState) ∧
      rotateCCW gameOverState = (false, gameOverState) ∧
      hold gameOverState = (false, gameOverState) ∧
      togglePause gameOverState = gameOverState) :=
  ⟨Or.inl rfl, terminal_state_frozen gameOverState 16 (Or.inl rfl)⟩

/-- C7: while PLAYING with an active piece, if the mode has a positive time
limit and the limit is reached after adding `deltaMs`, `tick` only adds
`deltaMs` to `elapsedMs`, sets the status to GAME_OVER for a completable
mode and COMPLETED otherwise, and emits the corresponding single event;
board, scoring, piece, level and lines are untouched. -/
theorem tick_timeExpiry (st : GState) (d : ℚ) (p : ActivePiece)
    (hs : st.status = GameStatus.PLAYING) (hp : st.currentPiece = some p)
    (hlim : 0 < st.mode.timeLimit) (hexp : st.mode.timeLimit ≤ st.elapsedMs + d) :
    tick d st =
      { st with elapsedMs := st.elapsedMs + d,
                status := if st.mode.isCompletable then GameStatus.GAME_OVER
                          else GameStatus.COMPLETED,
                events := st.events ++
                  [if st.mode.isCompletable then EventTag.game_over
                   else EventTag.completed] } := by
  have hexpired : isTimeExpired st.mode (st.elapsedMs + d) = true := by
    simp [isTimeExpired, hlim, hexp]
  cases hc : st.mode.isCompletable <;>
    simp [tick, hp, hs, hexpired, hc]

/-- Witness for `tick_timeExpiry`: a tick on `ultraNearEnd` finds ultra
mode's 120 s exhausted and completes the game. -/
theorem tick_timeExpiry_witness :
    ultraNearEnd.status = GameStatus.PLAYING ∧
    0 < ultraNearEnd.mode.timeLimit ∧
    ultraNearEnd.mode.timeLimit ≤ ultraNearEnd.elapsedMs + 0 ∧
    tick 0 ultraNearEnd =
      { ultraNearEnd with
          elapsedMs := ultraNearEnd.elapsedMs + 0,
          status := if ultraNearEnd.mode.isCompletable then GameStatus.GAME_OVER
                    else GameStatus.COMPLETED,
          events := ultraNearEnd.events ++
            [if ultraNearEnd.mode.isCompletable then EventTag.game_over
             else EventTag.completed] } :=
  ⟨rfl, by decide, by simp [ultraNearEnd, ULTRA_MODE],
    tick_timeExpiry ultraNearEnd 0 ⟨PieceType.T, 0, 19, 3⟩ rfl rfl
      (by decide) (by simp [ultraNearEnd, ULTRA_MODE])⟩

/-- Auxiliary: `setCell` preserves the number of rows. -/
theorem length_setCell (g : Grid) (r c : Nat) (v : CellValue) :
    (setCell g r c v).length = g.length := by
  simp [setCell]

/-- Auxiliary: `setCell` at an in-range row preserves every row length. -/
theorem rows_setCell (g : Grid) {r : Nat} (c : Nat) (v : CellValue)
    (hr : r < g.length) (hrows : ∀ row ∈ g, row.length = BOARD_COLS) :
    ∀ row ∈ setCell g r c v, row.length = BOARD_COLS := by
  intro row hrow
  rcases List.mem_or_eq_of_mem_set hrow with h | h
  · exact hrows _ h
  · subst h
    rw [List.length_set, List.getD_eq_getElem _ _ hr]
    exact hrows _ (List.getElem_mem hr)

/-- Auxiliary: pointwise description of `setCell` at in-range indices. -/
theorem cellAt_setCell (g : Grid) (r c r' c' : Nat) (v : CellValue)
    (hr : r < g.length) (hc : c < (g.getD r []).length) :
    cellAt (setCell g r c v) r' c' =
      if r = r' ∧ c = c' then v else cellAt g r' c' := by
  have hc' : c < (g[r]?.getD []).length := by
    rwa [List.getD_eq_getElem?_getD] at hc
  have hcg : c < g[r].length := by
    rwa [List.getElem?_eq_getElem hr, Option.getD_some] at hc'
  by_cases hrr : r = r'
  · subst hrr
    by_cases hcc : c = c'
    · subst hcc
      simp [cellAt, setCell, List.getD_eq_getElem?_getD, List.getElem?_set, hr, hcg]
    · simp [cellAt, setCell, List.getD_eq_getElem?_getD, List.getElem?_set, hr, hcc]
  · simp [cellAt, setCell, List.getD_eq_getElem?_getD, List.getElem?_set, hrr]

/-- Auxiliary: the write step of `lockPiece` keeps the grid's shape. -/
theorem lockFold_shape (t : PieceType) (cs : List Cell) (g : Grid)
    (hlen : g.length = BOARD_ROWS)
    (hrows : ∀ row ∈ g, row.length = BOARD_COLS) :
    (cs.foldl
      (fun acc x =>
        if inBounds x.row x.col then setCell acc x.row.toNat x.col.toNat (some t)
        else acc) g).length = BOARD_ROWS ∧
    ∀ row ∈ cs.foldl
      (fun acc x =>
        if inBounds x.row x.col then setCell acc x.row.toNat x.col.toNat (some t)
        else acc) g, row.length = BOARD_COLS := by
  induction cs generalizing g with
  | nil => exact ⟨hlen, hrows⟩
  | cons x rest ih =>
      simp only [List.foldl_cons]
      by_cases hx : inBounds x.row x.col = true
      · rw [if_pos hx]
        refine ih _ ?_ ?_
        · rw [length_setCell, hlen]
        · refine rows_setCell _ _ _ ?_ hrows
          have : x.row.toNat < BOARD_ROWS := by
            simp only [inBounds, Bool.and_eq_true, decide_eq_true_eq] at hx
            omega
          omega
      · rw [if_neg hx]
        exact ih g hlen hrows

/-- Auxiliary: pointwise description of the `lockPiece` write loop. -/
theorem cellAt_lockFold (t : PieceType) (cs : List Cell) (g : Grid)
    (hlen : g.length = BOARD_ROWS)
    (hrows : ∀ row ∈ g, row.length = BOARD_COLS)
    (r c : Nat) (hr : r < BOARD_ROWS) (hc : c < BOARD_COLS) :
    cellAt (cs.foldl
      (fun acc x =>
        if inBounds x.row x.col then setCell acc x.row.toNat x.col.toNat (some t)
        else acc) g) r c =
      if ∃ x ∈ cs, x.row = (r : Int) ∧ x.col = (c : Int) then some t
      else cellAt g r c := by
  induction cs generalizing g with
  | nil => simp
  | cons x rest ih =>
      simp only [List.foldl_cons]
      by_cases hx : inBounds x.row x.col = true
      · have hbounds : 0 ≤ x.row ∧ x.row < (BOARD_ROWS : Int) ∧
            0 ≤ x.col ∧ x.col < (BOARD_COLS : Int) := by
          simp only [inBounds, Bool.and_eq_true, decide_eq_true_eq] at hx
          omega
        rw [if_pos hx]
        have hr' : x.row.toNat < g.length := by rw [hlen]; omega
        have hc' : x.col.toNat < (g.getD x.row.toNat []).length := by
          rw [List.getD_eq_getElem _ _ hr', hrows _ (List.getElem_mem hr')]
          omega
        rw [ih _ (by rw [length_setCell, hlen])
          (rows_setCell _ _ _ hr' hrows),
          cellAt_setCell _ _ _ _ _ _ hr' hc']
        by_cases hhit : x.row = (r : Int) ∧ x.col = (c : Int)
        · have hnat : x.row.toNat = r ∧ x.col.toNat = c := by omega
          simp [hhit, hnat]
        · have hnat : ¬(x.row.toNat = r ∧ x.col.toNat = c) := by omega
          simp [hhit, hnat]
      · rw [if_neg hx]
        rw [ih g hlen hrows]
        have hxmiss : ¬(x.row = (r : Int) ∧ x.col = (c : Int)) := by
          rintro ⟨h1, h2⟩
          apply hx
          simp only [inBounds, Bool.and_eq_true, decide_eq_true_eq]
          omega
        simp [hxmiss]

/-- C10: `lockPiece` is total and clips silently: for any piece, rotation
and origin — including origins whose absolute cells fall partly or wholly
off the 40×10 grid — it writes the piece type into exactly the in-bounds
cells among the four, leaves every other cell of the grid unchanged, keeps
the 40×10 shape, and (being a total function) signals no error. -/
theorem lockPiece_total_clips (g : Grid) (t : PieceType) (rot : Nat)
    (row col : Int) (hlen : g.length = BOARD_ROWS)
    (hrows : ∀ rw ∈ g, rw.length = BOARD_COLS) (r c : Nat)
    (hr : r < BOARD_ROWS) (hc : c < BOARD_COLS) :
    (lockPiece g t rot row col).length = BOARD_ROWS ∧
    (∀ rw ∈ lockPiece g t rot row col, rw.length = BOARD_COLS) ∧
    cellAt (lockPiece g t rot row col) r c =
      (if ∃ x ∈ getAbsoluteCells t rot row col,
          x.row = (r : Int) ∧ x.col = (c : Int)
       then some t else cellAt g r c) := by
  unfold lockPiece
  refine ⟨(lockFold_shape t _ g hlen hrows).1,
    (lockFold_shape t _ g hlen hrows).2,
    cellAt_lockFold t _ g hlen hrows r c hr hc⟩

/-- Witness for `lockPiece_total_clips`: a T locked at origin (39,3) has
three of its four cells at row 40, off the board; only (39,4) is written. -/
theorem lockPiece_total_clips_witness :
    createEmptyGrid.length = BOARD_ROWS ∧
    cellAt (lockPiece createEmptyGrid PieceType.T 0 39 3) 39 4 =
      (if ∃ x ∈ getAbsoluteCells PieceType.T 0 39 3,
          x.row = ((39 : Nat) : Int) ∧ x.col = ((4 : Nat) : Int)
       then some PieceType.T else cellAt createEmptyGrid 39 4) :=
  ⟨rfl,
    (lockPiece_total_clips createEmptyGrid PieceType.T 0 39 3 rfl
      (by decide) 39 4 (by decide) (by decide)).2.2⟩

/-- Auxiliary: reading every index of a list back with `getD` gives the
list itself. -/
theorem map_getD_range {α : Type} (g : List α) (d : α) :
    (List.range g.length).map (fun r => g.getD r d) = g := by
  induction g with
  | nil => rfl
  | cons a l ih =>
      simp only [List.length_cons, List.range_succ_eq_map, List.map_cons,
        List.getD_cons_zero, List.map_map]
      have hcomp : ((fun r => (a :: l).getD r d) ∘ Nat.succ) = fun r => l.getD r d := by
        funext r
        simp [List.getD_cons_succ]
      rw [hcomp, ih]

/-- Auxiliary: membership in the collected index list. -/
theorem mem_clearedRowsOf (g : Grid) (r : Nat) :
    r ∈ clearedRowsOf g ↔ r < BOARD_ROWS ∧ isCompleteRow (g.getD r []) = true := by
  simp [clearedRowsOf, List.mem_filter, List.mem_reverse, List.mem_range]

/-- Auxiliary: the collected index list counts the complete rows. -/
theorem length_clearedRowsOf (g : Grid) (hlen : g.length = BOARD_ROWS) :
    (clearedRowsOf g).length = g.countP isCompleteRow := by
  unfold clearedRowsOf
  rw [← List.countP_eq_length_filter, List.countP_reverse]
  have := map_getD_range g ([] : List CellValue)
  calc List.countP (fun r => isCompleteRow (g.getD r [])) (List.range BOARD_ROWS)
      = List.countP (isCompleteRow ∘ fun r => g.getD r []) (List.range g.length) := by
        rw [hlen]; rfl
    _ = List.countP isCompleteRow ((List.range g.length).map fun r => g.getD r []) := by
        rw [List.countP_map]
    _ = List.countP isCompleteRow g := by rw [map_getD_range]

/-- Auxiliary: filtering the enumerated grid by index membership in the
collected list equals filtering the rows by incompleteness. -/
theorem enum_filter_clearedRowsOf (g : Grid) (hlen : g.length = BOARD_ROWS) :
    ((g.enum).filter fun p => !((clearedRowsOf g).contains p.1)).map Prod.snd =
      g.filter fun row => !isCompleteRow row := by
  have hcongr : ∀ pr ∈ g.enum,
      (!((clearedRowsOf g).contains pr.1)) = (!isCompleteRow pr.2) := by
    intro pr hpr
    have hget := List.mem_enum_iff_get?.mp hpr
    have hlt : pr.1 < g.length := by
      by_contra hge
      rw [List.get?_eq_none.mpr (by omega)] at hget
      exact Option.noConfusion hget
    have hgetD : g.getD pr.1 [] = pr.2 := by
      rw [List.getD_eq_get?, hget, Option.getD_some]
    have : (clearedRowsOf g).contains pr.1 = isCompleteRow pr.2 := by
      cases hcomp : isCompleteRow pr.2 with
      | true =>
          have : pr.1 ∈ clearedRowsOf g :=
            (mem_clearedRowsOf g pr.1).mpr ⟨by omega, by rw [hgetD, hcomp]⟩
          exact List.elem_iff.mpr this
      | false =>
          rw [Bool.eq_false_iff]
          intro hcon
          have := (mem_clearedRowsOf g pr.1).mp (List.elem_iff.mp hcon)
          rw [hgetD, hcomp] at this
          exact Bool.noConfusion this.2
    rw [this]
  rw [List.filter_congr hcongr]
  have : ((g.enum).filter fun pr => !isCompleteRow pr.2).map Prod.snd =
      ((g.enum).map Prod.snd).filter fun row => !isCompleteRow row := by
    rw [List.filter_map]
    rfl
  rw [this, List.enum_map_snd]

/-- C3: `clearLines` removes exactly the rows in which every column is
non-empty, simultaneously: the returned index list contains exactly the
complete row indices, the count is the number of complete rows, the new
grid is the incomplete rows in their original order preceded by an equal
number of empty rows at the top, and the 40×10 shape is preserved. -/
theorem clearLines_spec (g : Grid) (hlen : g.length = BOARD_ROWS)
    (hrows : ∀ row ∈ g, row.length = BOARD_COLS) :
    (∀ r : Nat, r ∈ (clearLines g).2.2 ↔
      (r < BOARD_ROWS ∧ isCompleteRow (g.getD r []) = true)) ∧
    (clearLines g).2.1 = (clearLines g).2.2.length ∧
    (clearLines g).2.1 = g.countP isCompleteRow ∧
    (clearLines g).1 =
      List.replicate (clearLines g).2.1 (List.replicate BOARD_COLS none) ++
        g.filter (fun row => !isCompleteRow row) ∧
    (clearLines g).1.length = BOARD_ROWS ∧
    (∀ row ∈ (clearLines g).1, row.length = BOARD_COLS) := by
  have hfl : (g.filter fun row => !isCompleteRow row).length =
      g.length - g.countP isCompleteRow := by
    rw [← List.countP_eq_length_filter]
    have := List.length_eq_countP_add_countP isCompleteRow g
    have heq : List.countP (fun row => !isCompleteRow row) g =
        List.countP (fun a => decide ¬isCompleteRow a = true) g := by
      apply List.countP_congr
      intro a _
      cases h : isCompleteRow a <;> simp [h]
    omega
  by_cases hz : (clearedRowsOf g).length = 0
  · have hempty : clearedRowsOf g = [] := List.length_eq_zero.mp hz
    have hnone : ∀ row ∈ g, isCompleteRow row = false := by
      intro row hrow
      obtain ⟨i, hi, hval⟩ := List.mem_iff_getElem.mp hrow
      by_contra hcomp
      rw [Bool.not_eq_false] at hcomp
      have : i ∈ clearedRowsOf g := by
        rw [mem_clearedRowsOf]
        refine ⟨by omega, ?_⟩
        rw [List.getD_eq_getElem _ _ hi, hval]
        exact hcomp
      rw [hempty] at this
      exact List.not_mem_nil _ this
    have hres : clearLines g = (g, 0, []) := by
      simp only [clearLines]
      rw [if_pos hz]
    rw [hres]
    refine ⟨?_, rfl, ?_, ?_, hlen, hrows⟩
    · intro r
      simp only [List.not_mem_nil, false_iff, not_and]
      intro hr hcomp
      have : r ∈ clearedRowsOf g := (mem_clearedRowsOf g r).mpr ⟨hr, hcomp⟩
      rw [hempty] at this
      exact List.not_mem_nil _ this
    · rw [← length_clearedRowsOf g hlen, hz]
    · have : g.filter (fun row => !isCompleteRow row) = g :=
        List.filter_eq_self.mpr (by intro a ha; rw [hnone a ha]; rfl)
      rw [this]
      rfl
  · have hres : clearLines g =
        (List.replicate (clearedRowsOf g).length (List.replicate BOARD_COLS none) ++
          ((g.enum).filter fun p => !((clearedRowsOf g).contains p.1)).map Prod.snd,
         (clearedRowsOf g).length, clearedRowsOf g) := by
      simp only [clearLines]
      rw [if_neg hz]
    rw [hres]
    refine ⟨mem_clearedRowsOf g, rfl, length_clearedRowsOf g hlen, ?_, ?_, ?_⟩
    · rw [enum_filter_clearedRowsOf g hlen]
    · rw [List.length_append, List.length_replicate,
        enum_filter_clearedRowsOf g hlen, hfl, length_clearedRowsOf g hlen]
      have hle : g.countP isCompleteRow ≤ g.length := List.countP_le_length _
      omega
    · intro row hrow
      rcases List.mem_append.mp hrow with h | h
      · rw [List.eq_of_mem_replicate h, List.length_replicate]
      · rw [enum_filter_clearedRowsOf g hlen] at h
        exact hrows _ (List.mem_filter.mp h).1

/-- Witness for `clearLines_spec` on a board whose row 39 is full: one line
is cleared and it is row 39. -/
theorem clearLines_spec_witness :
    oneFullRowGrid.length = BOARD_ROWS ∧
    (∀ row ∈ oneFullRowGrid, row.length = BOARD_COLS) ∧
    (∀ r : Nat, r ∈ (clearLines oneFullRowGrid).2.2 ↔
      (r < BOARD_ROWS ∧ isCompleteRow (oneFullRowGrid.getD r []) = true)) ∧
    (clearLines oneFullRowGrid).2.1 = oneFullRowGrid.countP isCompleteRow :=
  ⟨rfl, by decide,
    (clearLines_spec oneFullRowGrid rfl (by decide)).1,
    (clearLines_spec oneFullRowGrid rfl (by decide)).2.2.1⟩

/-- Auxiliary: with all four in-place rotation states valid (open space),
one clockwise `tryRotate` from state `s` accepts the first kick `(0,0)` and
yields state `(s+1) % 4` at the unchanged origin. -/
theorem rotStepCW_openSpace (g : Grid) (t : PieceType) (row col : Int)
    (ht : t ≠ PieceType.O)
    (hvalid : ∀ r : Fin 4, isValidPosition g t r.val row col = true)
    (s : Fin 4) :
    rotStepCW g t (s.val, row, col) = some ((s.val + 1) % 4, row, col) := by
  have h1 := hvalid ⟨1, by omega⟩
  have h2 := hvalid ⟨2, by omega⟩
  have h3 := hvalid ⟨3, by omega⟩
  have h0 := hvalid ⟨0, by omega⟩
  simp only at h0 h1 h2 h3
  fin_cases s <;> by_cases hti : t = PieceType.I
  all_goals
    first
      | (subst hti
         simp [rotStepCW, tryRotate, tryKicks, h0, h1, h2, h3, iKicks])
      | simp [rotStepCW, tryRotate, tryKicks, hti, ht, h0, h1, h2, h3,
          jlstzKicks]

/-- C8: rotating any non-O piece clockwise four times in open space — every
in-place rotation state valid at the origin — returns it to its original
rotation state and original origin, the net kick over the cycle being zero. -/
theorem rotate_cw_four_cycle (g : Grid) (t : PieceType) (row col : Int)
    (ht : t ≠ PieceType.O) (s : Fin 4)
    (hvalid : ∀ r : Fin 4, isValidPosition g t r.val row col = true) :
    ((((rotStepCW g t (s.val, row, col)).bind (rotStepCW g t)).bind
        (rotStepCW g t)).bind (rotStepCW g t)) = some (s.val, row, col) := by
  have h0 : ∀ n : Nat, n < 4 → rotStepCW g t (n, row, col) =
      some ((n + 1) % 4, row, col) := fun n hn =>
    rotStepCW_openSpace g t row col ht hvalid ⟨n, hn⟩
  fin_cases s <;>
    simp [h0 0 (by omega), h0 1 (by omega), h0 2 (by omega), h0 3 (by omega)]

/-- Witness for `rotate_cw_four_cycle`: a T in the middle of an empty board
returns to state 0 at (20,3) after four clockwise rotations. -/
theorem rotate_cw_four_cycle_witness :
    (PieceType.T ≠ PieceType.O) ∧
    (∀ r : Fin 4, isValidPosition createEmptyGrid PieceType.T r.val 20 3 = true) ∧
    ((((rotStepCW createEmptyGrid PieceType.T ((0 : Fin 4).val, 20, 3)).bind
        (rotStepCW createEmptyGrid PieceType.T)).bind
        (rotStepCW createEmptyGrid PieceType.T)).bind
        (rotStepCW createEmptyGrid PieceType.T)) =
      some ((0 : Fin 4).val, 20, 3) :=
  ⟨by decide, by decide,
    rotate_cw_four_cycle createEmptyGrid PieceType.T 20 3 (by decide) 0 (by decide)⟩

/-- C2 counterexample: on `holdBlockedState` (PLAYING, hold unused, an I
piece held whose spawn position is blocked) the claim's guarantees fail:
`hold()` returns `false`, `holdUsed` stays `false`, no hold event is
emitted (only a game_over event), and the state is not unchanged either —
the game fails into GAME_OVER with the hold slot already overwritten. -/
theorem hold_blocked_swap_counterexample :
    holdBlockedState.status = GameStatus.PLAYING ∧
    holdBlockedState.holdUsed = false ∧
    holdBlockedState.holdPiece = some PieceType.I ∧
    isValidPosition holdBlockedState.grid PieceType.I 0
      (getSpawnRow PieceType.I) SPAWN_COL = false ∧
    (hold holdBlockedState).1 = false ∧
    (hold holdBlockedState).2.holdUsed = false ∧
    (hold holdBlockedState).2.status = GameStatus.GAME_OVER ∧
    (hold holdBlockedState).2.events =
      holdBlockedState.events ++ [EventTag.game_over] ∧
    (hold holdBlockedState).2.holdPiece = some PieceType.T := by
  refine ⟨rfl, rfl, rfl, by decide, by decide, by decide, by decide,
    by decide, by decide⟩

/-- C2 (amended): for a PLAYING state with an active piece,
`hold()` returns `false` without any state change when `holdUsed` is
already set; in the first-hold case and in the successful-swap case it
marks `holdUsed`, resets every per-piece timer and flag, stores the current
piece's type in the hold slot, emits exactly one hold event and returns
`true`; but when the swapped piece's spawn position is blocked it instead
overwrites the hold slot, enters GAME_OVER, emits a game_over event (no
hold event), returns `false`, and leaves `holdUsed` and the timers
untouched. -/
theorem hold_spec (st : GState) (p : ActivePiece)
    (hs : st.status = GameStatus.PLAYING) (hp : st.currentPiece = some p) :
    (st.holdUsed = true → hold st = (false, st)) ∧
    (st.holdUsed = false → st.holdPiece = none →
      (hold st).1 = true ∧ (hold st).2.holdUsed = true ∧
      (hold st).2.holdPiece = some p.type ∧
      (hold st).2.lockDelayActive = false ∧ (hold st).2.lockDelayTimer = 0 ∧
      (hold st).2.lockResetCount = 0 ∧ (hold st).2.gravityAccumulator = 0 ∧
      (hold st).2.lastMoveWasRotation = false ∧
      (hold st).2.lastWasTSpin = false ∧ (hold st).2.lastWasTSpinMini = false ∧
      (hold st).2.events.count EventTag.hold =
        st.events.count EventTag.hold + 1) ∧
    (∀ h : PieceType, st.holdUsed = false → st.holdPiece = some h →
      isValidPosition st.grid h 0 (getSpawnRow h) SPAWN_COL = true →
      (hold st).1 = true ∧ (hold st).2.holdUsed = true ∧
      (hold st).2.holdPiece = some p.type ∧
      (hold st).2.currentPiece = some ⟨h, 0, getSpawnRow h, SPAWN_COL⟩ ∧
      (hold st).2.lockDelayActive = false ∧ (hold st).2.lockDelayTimer = 0 ∧
      (hold st).2.lockResetCount = 0 ∧ (hold st).2.gravityAccumulator = 0 ∧
      (hold st).2.lastMoveWasRotation = false ∧
      (hold st).2.lastWasTSpin = false ∧ (hold st).2.lastWasTSpinMini = false ∧
      (hold st).2.events.count EventTag.hold =
        st.events.count EventTag.hold + 1) ∧
    (∀ h : PieceType, st.holdUsed = false → st.holdPiece = some h →
      isValidPosition st.grid h 0 (getSpawnRow h) SPAWN_COL = false →
      hold st = (false, { st with holdPiece := some p.type,
                                  status := GameStatus.GAME_OVER,
                                  events := st.events ++ [EventTag.game_over] })) := by
  refine ⟨?_, ?_, ?_, ?_⟩
  · intro hu
    simp [hold, hp, hu]
  · intro hu hnone
    cases hv : isValidPosition st.grid (st.nextQueue.head?.getD PieceType.I) 0
        (getSpawnRow (st.nextQueue.head?.getD PieceType.I)) SPAWN_COL <;>
      simp [hold, hp, hu, hs, hnone, holdFinish, spawnPiece, hv,
        List.count_append, List.count_cons, List.count_nil]
  · intro h hu hsome hv
    simp [hold, hp, hu, hs, hsome, holdFinish, hv,
      List.count_append, List.count_cons, List.count_nil]
  · intro h hu hsome hv
    simp [hold, hp, hu, hs, hsome, hv]

/-- Witness for `hold_spec`: the blocked-swap branch at `holdBlockedState`. -/
theorem hold_spec_witness :
    holdBlockedState.status = GameStatus.PLAYING ∧
    holdBlockedState.currentPiece = some ⟨PieceType.T, 0, 19, 3⟩ ∧
    holdBlockedState.holdUsed = false ∧
    hold holdBlockedState =
      (false, { holdBlockedState with
                  holdPiece := some PieceType.T,
                  status := GameStatus.GAME_OVER,
                  events := holdBlockedState.events ++ [EventTag.game_over] }) :=
  ⟨rfl, rfl, rfl,
    (hold_spec holdBlockedState ⟨PieceType.T, 0, 19, 3⟩ rfl rfl).2.2.2
      PieceType.I rfl rfl (by decide)⟩

/-- Auxiliary: counting after `List.set`, in addition form. -/
theorem count_set_add (l : List PieceType) (i : Nat) (v x : PieceType)
    (hi : i < l.length) :
    (l.set i v).count x + (if l[i] = x then 1 else 0) =
      l.count x + (if v = x then 1 else 0) := by
  induction l generalizing i with
  | nil => simp at hi
  | cons a tl ih =>
      cases i with
      | zero =>
          simp only [List.set_cons_zero, List.getElem_cons_zero, List.count_cons]
          split_ifs <;> simp_all <;> omega
      | succ n =>
          have hn : n < tl.length := by simpa using hi
          simp only [List.set_cons_succ, List.getElem_cons_succ, List.count_cons]
          have := ih n hn
          split_ifs <;> simp_all <;> omega

/-- Auxiliary: `swapIdx` at two in-range indices is a permutation. -/
theorem swapIdx_perm (l : List PieceType) (i j : Nat)
    (hi : i < l.length) (hj : j < l.length) :
    (swapIdx l i j).Perm l := by
  rw [List.perm_iff_count]
  intro x
  have hgi : l.getD i PieceType.I = l[i] := List.getD_eq_getElem l _ hi
  have hgj : l.getD j PieceType.I = l[j] := List.getD_eq_getElem l _ hj
  have hj' : j < (l.set i l[j]).length := by rwa [List.length_set]
  have h1 := count_set_add l i (l[j]) x hi
  have h2 := count_set_add (l.set i (l[j])) j (l[i]) x hj'
  simp only [swapIdx]
  rw [hgi, hgj]
  by_cases hij : i = j
  · subst hij
    rw [List.getElem_set_self hj'] at h2
    omega
  · rw [List.getElem_set_ne hij hj'] at h2
    by_cases hx1 : l[i] = x <;> by_cases hx2 : l[j] = x <;>
      simp only [hx1, hx2, if_true, if_false] at h1 h2 ⊢ <;> omega

/-- Auxiliary: `Math.floor(q * (i + 1))` with `q ∈ [0, 1)` is a valid index
below `i + 1`. -/
theorem floor_mul_toNat_lt (q : ℚ) (m : Nat) (h0 : 0 ≤ q) (h1 : q < 1)
    (hm : 0 < m) :
    (Rat.floor (q * (m : ℚ))).toNat < m := by
  have hfl : Rat.floor (q * (m : ℚ)) = ⌊q * (m : ℚ)⌋ := rfl
  have hmq : (0 : ℚ) < (m : ℚ) := by exact_mod_cast hm
  have hlt : q * (m : ℚ) < (m : ℚ) := by
    calc q * (m : ℚ) < 1 * (m : ℚ) := by
          exact mul_lt_mul_of_pos_right h1 hmq
      _ = (m : ℚ) := one_mul _
  have hnonneg : (0 : ℚ) ≤ q * (m : ℚ) := mul_nonneg h0 (le_of_lt hmq)
  rw [hfl, Int.toNat_lt (Int.floor_nonneg.mpr hnonneg)]
  exact_mod_cast Int.floor_lt.mpr (by exact_mod_cast hlt)

/-- Auxiliary: `swapIdx` preserves length. -/
theorem length_swapIdx (l : List PieceType) (i j : Nat) :
    (swapIdx l i j).length = l.length := by
  simp [swapIdx]

/-- Auxiliary: the Fisher–Yates loop permutes its input when the random
source stays in `[0, 1)`. -/
theorem shuffleAux_perm (rng : Nat → ℚ) (hr : ∀ n, 0 ≤ rng n ∧ rng n < 1) :
    ∀ (i ctr : Nat) (arr : List PieceType), i < arr.length →
      ((shuffleAux rng ctr i arr).1).Perm arr := by
  intro i
  induction i with
  | zero => intro ctr arr _; exact List.Perm.refl _
  | succ n ih =>
      intro ctr arr hlt
      have hj : (Rat.floor (rng ctr * ((n : ℚ) + 2))).toNat < n + 2 := by
        have := floor_mul_toNat_lt (rng ctr) (n + 2) (hr ctr).1 (hr ctr).2
          (by omega)
        rwa [Nat.cast_add, Nat.cast_ofNat] at this
      have hswap : (swapIdx arr (n + 1)
          ((Rat.floor (rng ctr * ((n : ℚ) + 2))).toNat)).Perm arr :=
        swapIdx_perm arr _ _ hlt (by omega)
      have hlen : n < (swapIdx arr (n + 1)
          ((Rat.floor (rng ctr * ((n : ℚ) + 2))).toNat)).length := by
        rw [length_swapIdx]; omega
      exact ((ih (ctr + 1) _ hlen).trans hswap)

/-- Auxiliary: shuffling a fresh bag yields a permutation of the 7 types. -/
theorem shuffle_perm (rng : Nat → ℚ) (hr : ∀ n, 0 ≤ rng n ∧ rng n < 1)
    (ctr : Nat) :
    ((shuffle rng ctr ALL_PIECE_TYPES).1).Perm ALL_PIECE_TYPES :=
  shuffleAux_perm rng hr 6 ctr ALL_PIECE_TYPES (by decide)

/-- Auxiliary: draining a bag of known contents pops exactly those pieces
in order, leaving the bag empty and the rest of the state untouched. -/
theorem drawN_drain (l : List PieceType) :
    ∀ s : BagState, s.bag = l →
      drawN s l.length = (l, ⟨s.rng, s.ctr, [], s.nextBag⟩) := by
  induction l with
  | nil =>
      intro s hs
      simp only [List.length_nil, drawN]
      cases s
      simp_all
  | cons a tl ih =>
      intro s hs
      simp only [List.length_cons, drawN, bagNext, hs, List.isEmpty_cons,
        Bool.false_eq_true, if_false, List.headD_cons, List.tail_cons]
      rw [ih ⟨s.rng, s.ctr, tl, s.nextBag⟩ rfl]

/-- Auxiliary: `drawN` splits over sums of draw counts. -/
theorem drawN_add (m n : Nat) :
    ∀ s : BagState, drawN s (m + n) =
      ((drawN s m).1 ++ (drawN (drawN s m).2 n).1, (drawN (drawN s m).2 n).2) := by
  induction m with
  | zero => intro s; simp [drawN]
  | succ k ih =>
      intro s
      have hrw : k + 1 + n = (k + n) + 1 := by omega
      rw [hrw]
      simp only [drawN]
      rw [ih (bagNext s).2]
      simp

/-- Auxiliary: seven draws from an empty current bag yield exactly the
pre-shuffled next bag, leaving an empty current bag and a freshly shuffled
next bag. -/
theorem drawN_refill (s : BagState) (hbag : s.bag = [])
    (hlen : s.nextBag.length = 7) :
    drawN s 7 = (s.nextBag,
      ⟨s.rng, (shuffle s.rng s.ctr ALL_PIECE_TYPES).2, [],
        (shuffle s.rng s.ctr ALL_PIECE_TYPES).1⟩) := by
  cases hnb : s.nextBag with
  | nil => rw [hnb] at hlen; simp at hlen
  | cons a tl =>
      have hempty : s.bag.isEmpty = true := by rw [hbag]; rfl
      have htl : tl.length = 6 := by
        have := hlen; rw [hnb] at this; simpa using this
      have h7 : (7 : Nat) = 1 + 6 := rfl
      have hone : drawN s 1 = ([(bagNext s).1], (bagNext s).2) := rfl
      have hb : bagNext s =
          (a, ⟨s.rng, (shuffle s.rng s.ctr ALL_PIECE_TYPES).2, tl,
            (shuffle s.rng s.ctr ALL_PIECE_TYPES).1⟩) := by
        simp only [bagNext, hempty, if_true, hnb, List.headD_cons, List.tail_cons]
      rw [h7, drawN_add 1 6, hone, hb]
      dsimp only
      rw [← htl, drawN_drain tl _ rfl]
      rfl

/-- Auxiliary: `drawN` yields as many pieces as requested. -/
theorem drawN_length (n : Nat) :
    ∀ s : BagState, (drawN s n).1.length = n := by
  induction n with
  | zero => intro s; rfl
  | succ k ih => intro s; simp [drawN, ih]

/-- C6: with any injected random source whose outputs lie in `[0, 1)`, every
aligned group of 7 consecutive draws — draws `7k+1` through `7k+7` counting
from construction — is a permutation of the 7 piece types, for every `k`.
(`preview` is modelled as the pure query it is in the source: it reads the
two bags and never writes the state, so interleaved previews cannot affect
the draw sequence.) -/
theorem bag_segment_perm (rng : Nat → ℚ) (hr : ∀ n, 0 ≤ rng n ∧ rng n < 1)
    (k : Nat) :
    ((drawN (mkBagRandomizer rng) (7 * k + 7)).1.drop (7 * k)).Perm
      ALL_PIECE_TYPES := by
  have hinit_bag : (mkBagRandomizer rng).bag.Perm ALL_PIECE_TYPES :=
    shuffle_perm rng hr 0
  have hinit_next : (mkBagRandomizer rng).nextBag.Perm ALL_PIECE_TYPES :=
    shuffle_perm rng hr _
  have hbag7 : (mkBagRandomizer rng).bag.length = 7 :=
    hinit_bag.length_eq.trans rfl
  have hdrain := drawN_drain (mkBagRandomizer rng).bag (mkBagRandomizer rng) rfl
  rw [hbag7] at hdrain
  have hstep : ∀ s : BagState, s.rng = rng → s.bag = [] →
      s.nextBag.Perm ALL_PIECE_TYPES →
      (drawN s 7).1.Perm ALL_PIECE_TYPES ∧ (drawN s 7).2.rng = rng ∧
      (drawN s 7).2.bag = [] ∧ (drawN s 7).2.nextBag.Perm ALL_PIECE_TYPES := by
    intro s hsr hsb hsn
    have hlen7 : s.nextBag.length = 7 := hsn.length_eq.trans rfl
    rw [drawN_refill s hsb hlen7]
    refine ⟨hsn, hsr, rfl, ?_⟩
    show ((shuffle s.rng s.ctr ALL_PIECE_TYPES).1).Perm ALL_PIECE_TYPES
    rw [hsr]
    exact shuffle_perm rng hr s.ctr
  have hP : ∀ m : Nat,
      (drawN (mkBagRandomizer rng) (7 * (m + 1))).2.rng = rng ∧
      (drawN (mkBagRandomizer rng) (7 * (m + 1))).2.bag = [] ∧
      (drawN (mkBagRandomizer rng) (7 * (m + 1))).2.nextBag.Perm
        ALL_PIECE_TYPES := by
    intro m
    induction m with
    | zero =>
        have h7 : 7 * (0 + 1) = 7 := by omega
        rw [h7, hdrain]
        exact ⟨rfl, rfl, hinit_next⟩
    | succ n ih =>
        have h7 : 7 * (n + 1 + 1) = 7 * (n + 1) + 7 := by omega
        rw [h7, drawN_add (7 * (n + 1)) 7]
        dsimp only
        exact ⟨(hstep _ ih.1 ih.2.1 ih.2.2).2.1, (hstep _ ih.1 ih.2.1 ih.2.2).2.2.1,
          (hstep _ ih.1 ih.2.1 ih.2.2).2.2.2⟩
  have hlenA : (drawN (mkBagRandomizer rng) (7 * k)).1.length = 7 * k :=
    drawN_length _ _
  rw [drawN_add (7 * k) 7]
  dsimp only
  rw [List.drop_left' hlenA]
  cases k with
  | zero =>
      show ((drawN (drawN (mkBagRandomizer rng) 0).2 7).1).Perm ALL_PIECE_TYPES
      have h0 : (drawN (mkBagRandomizer rng) 0).2 = mkBagRandomizer rng := rfl
      rw [h0, hdrain]
      exact hinit_bag
  | succ n =>
      exact (hstep _ (hP n).1 (hP n).2.1 (hP n).2.2).1

/-- Witness for `bag_segment_perm`: the constant-zero random source in the
first bag. -/
theorem bag_segment_perm_witness :
    (∀ n : Nat, 0 ≤ (fun _ : Nat => (0 : ℚ)) n ∧ (fun _ : Nat => (0 : ℚ)) n < 1) ∧
    ((drawN (mkBagRandomizer (fun _ : Nat => (0 : ℚ))) (7 * 0 + 7)).1.drop
      (7 * 0)).Perm ALL_PIECE_TYPES :=
  have hz : ∀ n : Nat, (0 : ℚ) ≤ (fun _ : Nat => (0 : ℚ)) n ∧
      (fun _ : Nat => (0 : ℚ)) n < 1 :=
    fun _ => ⟨le_refl 0, show (0 : ℚ) < 1 by decide⟩
  ⟨hz, bag_segment_perm (fun _ : Nat => (0 : ℚ)) hz 0⟩

/-- Auxiliary: every piece type can spawn on an empty board. -/
theorem spawn_open (t : PieceType) :
    isValidPosition createEmptyGrid t 0 (getSpawnRow t) SPAWN_COL = true := by
  cases t <;> decide

/-- Auxiliary: `spawnPiece` always reestablishes the piece invariant: either
the spawn position is free and the new piece is valid, or the status becomes
GAME_OVER and the invariant is vacuous. -/
theorem pieceOk_spawnPiece (st : GState) : PieceOk (spawnPiece st).2 := by
  unfold spawnPiece
  cases hv : isValidPosition st.grid (st.nextQueue.headD PieceType.I) 0
      (getSpawnRow (st.nextQueue.headD PieceType.I)) SPAWN_COL
  · intro hs
    simp only [hv, Bool.not_false, if_pos] at hs
    rcases hs with hs | hs <;> exact GameStatus.noConfusion hs
  · intro _
    simp only [hv, Bool.not_true, Bool.false_eq_true, if_false]
    exact ⟨⟨st.nextQueue.headD PieceType.I, 0,
      getSpawnRow (st.nextQueue.headD PieceType.I), SPAWN_COL⟩, rfl, hv⟩

/-- Auxiliary: `startLockDelay` does not touch status, grid or piece. -/
theorem pieceOk_startLockDelay (st : GState) (h : PieceOk st) :
    PieceOk (startLockDelay st) := by
  unfold startLockDelay
  split
  · exact h
  · exact h

/-- Auxiliary: `resetLockDelay` does not touch status, grid or piece. -/
theorem pieceOk_resetLockDelay (st : GState) (h : PieceOk st) :
    PieceOk (resetLockDelay st) := by
  unfold resetLockDelay
  split
  · exact h
  · exact h

/-- Auxiliary: `applyGravity` moves the piece only to a validated cell. -/
theorem pieceOk_applyGravity (st : GState) (h : PieceOk st) :
    PieceOk (applyGravity st) := by
  unfold applyGravity
  cases hc : st.currentPiece with
  | none => exact h
  | some p =>
      cases hv : isValidPosition st.grid p.type p.rotation (p.row + 1) p.col
      · simp only [hv, Bool.false_eq_true, if_false]
        exact pieceOk_startLockDelay st h
      · simp only [hv, if_true]
        intro _
        exact ⟨{ p with row := p.row + 1 }, rfl, hv⟩

/-- Auxiliary: after `lockCurrentPiece` on a state with an active piece the
invariant holds: the call ends in COMPLETED or in a fresh spawn. -/
theorem pieceOk_lockCurrentPiece_some (st : GState) (p : ActivePiece)
    (hc : st.currentPiece = some p) : PieceOk (lockCurrentPiece st) := by
  unfold lockCurrentPiece
  rw [hc]
  dsimp only
  split
  · split
    · split
      · intro hs
        rcases hs with hs | hs <;> exact GameStatus.noConfusion hs
      · exact pieceOk_spawnPiece _
    · split
      · intro hs
        rcases hs with hs | hs <;> exact GameStatus.noConfusion hs
      · exact pieceOk_spawnPiece _
  · exact pieceOk_spawnPiece _

/-- Auxiliary: `lockCurrentPiece` preserves the invariant in general. -/
theorem pieceOk_lockCurrentPiece (st : GState) (h : PieceOk st) :
    PieceOk (lockCurrentPiece st) := by
  cases hc : st.currentPiece with
  | none =>
      unfold lockCurrentPiece
      rw [hc]
      exact h
  | some p => exact pieceOk_lockCurrentPiece_some st p hc

/-- Auxiliary: the gravity loop preserves the invariant for any fuel. -/
theorem pieceOk_gravityLoop (gravityMs : ℚ) (fuel : Nat) :
    ∀ st : GState, PieceOk st → PieceOk (gravityLoop gravityMs fuel st) := by
  induction fuel with
  | zero => intro st h; exact h
  | succ n ih =>
      intro st h
      unfold gravityLoop
      split
      · exact ih _ (pieceOk_applyGravity _ h)
      · exact h

/-- Auxiliary: a state agreeing with `st` on grid and status whose piece is
`st`'s piece inherits the invariant. -/
theorem pieceOk_mk (st : GState) (p : ActivePiece) (h : PieceOk st)
    (hc : st.currentPiece = some p) :
    ∀ st' : GState, st'.grid = st.grid → st'.status = st.status →
      st'.currentPiece = some p → PieceOk st' := by
  intro st' hg hst hcp hs
  obtain ⟨q, hq, hval⟩ := h (by rwa [hst] at hs)
  rw [hc] at hq
  injection hq with hq'
  subst hq'
  exact ⟨p, hcp, by rwa [hg]⟩

/-- Auxiliary: `tick` preserves the invariant. -/
theorem pieceOk_tick (d : ℚ) (st : GState) (h : PieceOk st) :
    PieceOk (tick d st) := by
  unfold tick
  cases hc : st.currentPiece with
  | none => exact h
  | some p =>
      dsimp only
      split
      · exact h
      · split
        · split
          · intro hs
            rcases hs with hs | hs <;> exact GameStatus.noConfusion hs
          · intro hs
            rcases hs with hs | hs <;> exact GameStatus.noConfusion hs
        · split
          · split
            · exact pieceOk_lockCurrentPiece_some _ p rfl
            · exact pieceOk_mk st p h hc _ rfl rfl rfl
          · exact pieceOk_gravityLoop _ _ _ (pieceOk_mk st p h hc _ rfl rfl rfl)

/-- Auxiliary: a successful kick test yields a position validated on the
board (the result's row kick is already negated to board convention). -/
theorem tryKicks_valid (g : Grid) (t : PieceType) (toState : Nat)
    (row col : Int) :
    ∀ (kicks : List (Int × Int)) (res : RotationResult),
      tryKicks g t toState row col kicks = some res →
      isValidPosition g t res.newRotation (row + res.kickRow)
        (col + res.kickCol) = true := by
  intro kicks
  induction kicks with
  | nil => intro res h; exact Option.noConfusion h
  | cons k rest ih =>
      obtain ⟨colOff, rowOff⟩ := k
      intro res h
      unfold tryKicks at h
      by_cases hv : isValidPosition g t toState (row - rowOff) (col + colOff) = true
      · rw [if_pos hv] at h
        injection h with h'
        subst h'
        dsimp only
        have harr : row + -rowOff = row - rowOff := by ring
        rw [harr]
        exact hv
      · rw [if_neg hv] at h
        exact ih res h

/-- Auxiliary: a successful `tryRotate` yields a validated position. -/
theorem tryRotate_valid (g : Grid) (t : PieceType) (rot : Nat)
    (row col : Int) (dir : Int) (res : RotationResult)
    (h : tryRotate g t rot row col dir = some res) :
    isValidPosition g t res.newRotation (row + res.kickRow)
      (col + res.kickCol) = true := by
  unfold tryRotate at h
  split at h
  · exact Option.noConfusion h
  · dsimp only at h
    split at h
    · exact Option.noConfusion h
    · exact tryKicks_valid g t _ row col _ res h

/-- Auxiliary: `tryMove` preserves the invariant. -/
theorem pieceOk_tryMove (st : GState) (rd cd : Int) (h : PieceOk st) :
    PieceOk (tryMove st rd cd).2 := by
  unfold tryMove
  cases hc : st.currentPiece with
  | none => exact h
  | some p =>
      dsimp only
      split
      · exact h
      · cases hv : isValidPosition st.grid p.type p.rotation (p.row + rd) (p.col + cd)
        · simp only [hv, Bool.false_eq_true, if_false]
          exact h
        · simp only [hv, if_true]
          have h1 : PieceOk { st with
              currentPiece := some { p with row := p.row + rd, col := p.col + cd },
              lastMoveWasRotation := false } := by
            intro _
            exact ⟨{ p with row := p.row + rd, col := p.col + cd }, rfl, hv⟩
          have h2 := pieceOk_resetLockDelay _ h1
          split
          · exact pieceOk_startLockDelay _ h2
          · split
            · exact h2
            · exact h2

/-- Auxiliary: `softDrop` preserves the invariant. -/
theorem pieceOk_softDrop (st : GState) (h : PieceOk st) :
    PieceOk (softDrop st).2 := by
  unfold softDrop
  cases hc : st.currentPiece with
  | none => exact h
  | some p =>
      dsimp only
      split
      · exact h
      · cases hv : isValidPosition st.grid p.type p.rotation (p.row + 1) p.col
        · simp only [hv, Bool.false_eq_true, if_false]
          exact h
        · simp only [hv, if_true]
          have h1 : PieceOk { st with
              currentPiece := some { p with row := p.row + 1 },
              scoring := scoreSoftDrop st.scoring 1,
              lastMoveWasRotation := false } := by
            intro _
            exact ⟨{ p with row := p.row + 1 }, rfl, hv⟩
          split
          · exact pieceOk_startLockDelay _ h1
          · exact h1

/-- Auxiliary: `tryRotation` preserves the invariant. -/
theorem pieceOk_tryRotation (st : GState) (dir : Int) (h : PieceOk st) :
    PieceOk (tryRotation st dir).2 := by
  unfold tryRotation
  cases hc : st.currentPiece with
  | none => exact h
  | some p =>
      dsimp only
      split
      · exact h
      · generalize hr : tryRotate st.grid p.type p.rotation p.row p.col dir = r
        cases r with
        | none => exact h
        | some res =>
            dsimp only
            have hval := tryRotate_valid st.grid p.type p.rotation p.row p.col
              dir res hr
            have h1 : PieceOk { st with
                currentPiece := some (ActivePiece.mk p.type res.newRotation
                  (p.row + res.kickRow) (p.col + res.kickCol)),
                lastMoveWasRotation := true, lastWasTSpin := res.isTSpin,
                lastWasTSpinMini := res.isTSpinMini } := by
              intro _
              exact ⟨ActivePiece.mk p.type res.newRotation
                (p.row + res.kickRow) (p.col + res.kickCol), rfl, hval⟩
            have h2 := pieceOk_resetLockDelay _ h1
            split
            · exact pieceOk_startLockDelay _ h2
            · split
              · exact h2
              · exact h2

/-- Auxiliary: `hardDrop` preserves the invariant (it ends in the lock
sequence, which respawns or terminates). -/
theorem pieceOk_hardDrop (st : GState) (h : PieceOk st) :
    PieceOk (hardDrop st) := by
  unfold hardDrop
  cases hc : st.currentPiece with
  | none => exact h
  | some p =>
      dsimp only
      split
      · exact h
      · exact pieceOk_lockCurrentPiece_some _
          { p with row := getGhostRow st.grid p.type p.rotation p.row p.col } rfl

/-- Auxiliary: `hold` preserves the invariant. -/
theorem pieceOk_hold (st : GState) (h : PieceOk st) : PieceOk (hold st).2 := by
  unfold hold
  cases hc : st.currentPiece with
  | none => exact h
  | some p =>
      dsimp only
      split
      · exact h
      · split
        · exact h
        · cases hh : st.holdPiece with
          | some holdType =>
              dsimp only
              cases hv : isValidPosition st.grid holdType 0
                  (getSpawnRow holdType) SPAWN_COL
              · simp only [hv, Bool.not_false, if_pos]
                intro hs
                rcases hs with hs | hs <;> exact GameStatus.noConfusion hs
              · simp only [hv, Bool.not_true, Bool.false_eq_true, if_false]
                intro _
                exact ⟨⟨holdType, 0, getSpawnRow holdType, SPAWN_COL⟩, rfl, hv⟩
          | none =>
              dsimp only
              exact pieceOk_spawnPiece _

/-- Auxiliary: `togglePause` preserves the invariant: it only moves between
PLAYING and PAUSED, which the invariant treats alike. -/
theorem pieceOk_togglePause (st : GState) (h : PieceOk st) :
    PieceOk (togglePause st) := by
  unfold togglePause
  split
  case isTrue hs' =>
    intro _
    exact h (Or.inl hs')
  case isFalse =>
    split
    case isTrue hs' =>
      intro _
      exact h (Or.inr hs')
    case isFalse => exact h

/-- Auxiliary: a freshly constructed game is PLAYING (the first spawn on an
empty board always succeeds). -/
theorem mkGameState_status (mode : GameModeConfig) (rng : Nat → ℚ) :
    (mkGameState mode rng).status = GameStatus.PLAYING := by
  simp [mkGameState, spawnPiece, spawn_open]

/-- C9: in every state reachable from construction through the public
operations, whenever the status is PLAYING the active piece exists and all
four of its cells are inside the 40×10 grid on empty board cells. -/
theorem reachable_piece_valid (st : GState) (hst : Reachable st)
    (hs : st.status = GameStatus.PLAYING) :
    ∃ p, st.currentPiece = some p ∧
      isValidPosition st.grid p.type p.rotation p.row p.col = true := by
  have h : PieceOk st := by
    clear hs
    induction hst with
    | init mode rng => exact pieceOk_spawnPiece _
    | tick d st' _ ih => exact pieceOk_tick d st' ih
    | moveLeft st' _ ih => exact pieceOk_tryMove st' 0 (-1) ih
    | moveRight st' _ ih => exact pieceOk_tryMove st' 0 1 ih
    | softDrop st' _ ih => exact pieceOk_softDrop st' ih
    | hardDrop st' _ ih => exact pieceOk_hardDrop st' ih
    | rotateCW st' _ ih => exact pieceOk_tryRotation st' 1 ih
    | rotateCCW st' _ ih => exact pieceOk_tryRotation st' (-1) ih
    | hold st' _ ih => exact pieceOk_hold st' ih
    | togglePause st' _ ih => exact pieceOk_togglePause st' ih
  exact h (Or.inl hs)

/-- Witness for `reachable_piece_valid` at a freshly constructed marathon
game with the constant-zero random source. -/
theorem reachable_piece_valid_witness :
    (mkGameState MARATHON_MODE (fun _ : Nat => (0 : ℚ))).status =
      GameStatus.PLAYING ∧
    ∃ p, (mkGameState MARATHON_MODE (fun _ : Nat => (0 : ℚ))).currentPiece =
        some p ∧
      isValidPosition (mkGameState MARATHON_MODE (fun _ : Nat => (0 : ℚ))).grid
        p.type p.rotation p.row p.col = true :=
  ⟨mkGameState_status MARATHON_MODE (fun _ : Nat => (0 : ℚ)),
    reachable_piece_valid _
      (Reachable.init MARATHON_MODE (fun _ : Nat => (0 : ℚ)))
      (mkGameState_status MARATHON_MODE (fun _ : Nat => (0 : ℚ)))⟩
